import Mathlib

/-!
# Session orchestration engine (`pkg/engine`): event bus, session manager, facade

A shallow embedding of the Go package `pkg/engine`.

* Go values reached through pointers (the bus, the manager, the channels) are
  represented once, in the state that owns them; a channel value is the index of
  its cell in the list of channels made so far.
* The locks are not represented: every operation is executed atomically.
* A Go panic (closing a closed channel, sending on a closed channel, storing
  into a nil map) is the result `none`.
* The external collaborators (`session.Instance`, `session.Storage`, the clock)
  are the fields of `Ext`; every operation takes the `Ext` that answers the
  calls it makes.
-/

namespace engine

/-! ## types.go -/

/-- Instants of `time.Time`. -/
abbrev Time := Nat

/-- Go `type Status string`. -/
abbrev Status := String

def StatusRunning : Status := "running"
def StatusReady : Status := "ready"
def StatusLoading : Status := "loading"
def StatusPaused : Status := "paused"

/-- Go `type DiffStats struct`. -/
structure DiffStats where
  Added : Int
  Removed : Int
  Content : String
deriving DecidableEq, Repr

/-- Go `type EventKind string`. -/
abbrev EventKind := String

def EventStdout : EventKind := "stdout"
def EventStderr : EventKind := "stderr"
def EventState : EventKind := "state"

/-- Go `type StateEvent struct`. -/
structure StateEvent where
  Previous : Status
  Current : Status
deriving DecidableEq, Repr

/-- Go `type DiffEvent struct`; the pointer `Stats` is an `Option`. -/
structure DiffEvent where
  Stats : Option DiffStats
  HasChanges : Bool
deriving DecidableEq, Repr

/-- Go `type StdoutEvent struct`. -/
structure StdoutEvent where
  Content : String
deriving DecidableEq, Repr

/-- The values stored in `Event.Payload` (an `interface{}`) by this package. -/
inductive Payload where
  | stdout (p : StdoutEvent)
  | diff (p : DiffEvent)
  | state (p : StateEvent)
deriving DecidableEq, Repr

/-- Go `type Event struct`. -/
structure Event where
  SessionID : String
  Kind : EventKind
  Payload : Payload
  Timestamp : Time
deriving DecidableEq, Repr

/-! ## Go maps keyed by strings -/

/-- Lookup `m[k]` with its `exists` flag. -/
def mapLookup {β : Type} (m : List (String × β)) (k : String) : Option β :=
  match m with
  | [] => none
  | (k1, v) :: rest => if k1 = k then some v else mapLookup rest k

/-- Store `m[k] = v`. -/
def mapInsert {β : Type} (k : String) (v : β) : List (String × β) → List (String × β)
  | [] => [(k, v)]
  | (k1, v1) :: rest => if k1 = k then (k, v) :: rest else (k1, v1) :: mapInsert k v rest

/-- Builtin `delete(m, k)`. -/
def mapDelete {β : Type} (k : String) : List (String × β) → List (String × β)
  | [] => []
  | (k1, v1) :: rest => if k1 = k then rest else (k1, v1) :: mapDelete k rest

/-! ## Go channels of events -/

/-- A channel made by `make(chan Event, cap)`: its capacity, the events queued
in it (oldest first), and whether `close` was called on it. -/
structure Chan where
  cap : Nat
  buf : List Event
  closed : Bool
deriving DecidableEq, Repr

/-- The statement `select { case ch <- event: default: }` with no receiver
waiting: the event is queued when there is room and dropped otherwise; a send
on a closed channel panics. -/
def trySend (chans : List Chan) (ch : Nat) (event : Event) : Option (List Chan) :=
  match chans[ch]? with
  | none => none
  | some c =>
    if c.closed then none
    else if c.buf.length < c.cap then
      some (chans.set ch { c with buf := c.buf ++ [event] })
    else some chans

/-- The builtin `close(ch)`; closing a closed channel panics. -/
def closeChan (chans : List Chan) (ch : Nat) : Option (List Chan) :=
  match chans[ch]? with
  | none => none
  | some c => if c.closed then none else some (chans.set ch { c with closed := true })

/-- The loop `for _, ch := range subs { select { case ch <- event: default: } }`. -/
def sendAll (event : Event) : List Nat → List Chan → Option (List Chan)
  | [], chans => some chans
  | ch :: rest, chans => (trySend chans ch event).bind (sendAll event rest)

/-- The loop `for _, ch := range subs { close(ch) }`. -/
def closeAll : List Nat → List Chan → Option (List Chan)
  | [], chans => some chans
  | ch :: rest, chans => (closeChan chans ch).bind (closeAll rest)

/-! ## event.go -/

/-- Go `type EventBus struct`. `chans` holds the channels that `Subscribe` made;
`subscribers` is `none` for the nil map; a nil slice is the empty list. -/
structure EventBus where
  chans : List Chan
  subscribers : Option (List (String × List Nat))
  globalSubs : List Nat
  closed : Bool
deriving DecidableEq, Repr

/-- Go `NewEventBus`. -/
def NewEventBus : EventBus :=
  { chans := [], subscribers := some [], globalSubs := [], closed := false }

/-- Go `(*EventBus).Subscribe`: the channel returned and the bus afterwards. -/
def EventBus.Subscribe (eb : EventBus) (sessionID : String) : Option (Nat × EventBus) :=
  if eb.closed then
    some (eb.chans.length,
      { eb with chans := eb.chans ++ [{ cap := 0, buf := [], closed := true }] })
  else
    let ch := eb.chans.length
    let chans := eb.chans ++ [{ cap := 100, buf := [], closed := false }]
    if sessionID = "" then
      some (ch, { eb with chans := chans, globalSubs := eb.globalSubs ++ [ch] })
    else
      match eb.subscribers with
      | none => none
      | some subs =>
        some (ch, { eb with
          chans := chans
          subscribers := some (mapInsert sessionID ((mapLookup subs sessionID).getD [] ++ [ch]) subs) })

/-- Go `(*EventBus).Publish`. -/
def EventBus.Publish (eb : EventBus) (event : Event) : Option EventBus :=
  if eb.closed then some eb
  else
    (sendAll event eb.globalSubs eb.chans).bind fun chans1 =>
      match eb.subscribers.bind fun m => mapLookup m event.SessionID with
      | some subs => (sendAll event subs chans1).map fun chans2 => { eb with chans := chans2 }
      | none => some { eb with chans := chans1 }

/-- Every channel stored in the map `subscribers`, in range order. -/
def sessionSubs (subscribers : Option (List (String × List Nat))) : List Nat :=
  ((subscribers.getD []).map Prod.snd).flatten

/-- Go `(*EventBus).Close`. -/
def EventBus.Close (eb : EventBus) : Option EventBus :=
  if eb.closed then some eb
  else
    (closeAll eb.globalSubs eb.chans).bind fun chans1 =>
      (closeAll (sessionSubs eb.subscribers) chans1).map fun chans2 =>
        { chans := chans2, subscribers := none, globalSubs := [], closed := true }

/-- Go `createEvent`; `now` is the value of `time.Now()`. -/
def createEvent (now : Time) (sessionID : String) (kind : EventKind) (payload : Payload) : Event :=
  { SessionID := sessionID, Kind := kind, Payload := payload, Timestamp := now }

/-- A consumer's receive `<-ch` when an event is queued; nothing happens
otherwise. -/
def EventBus.receive (eb : EventBus) (ch : Nat) : EventBus :=
  match eb.chans[ch]? with
  | none => eb
  | some c =>
    match c.buf with
    | [] => eb
    | _ :: rest => { eb with chans := eb.chans.set ch { c with buf := rest } }

/-- The calls a program makes on a bus. -/
inductive BusOp where
  | subscribe (sessionID : String)
  | publish (event : Event)
  | close
  | receive (ch : Nat)
deriving DecidableEq, Repr

/-- One call on the bus; `subs` records, for each `Subscribe(s)` made so far,
the pair of `s` and the channel it returned. -/
def stepBus (st : EventBus × List (String × Nat)) : BusOp → Option (EventBus × List (String × Nat))
  | .subscribe s => (st.1.Subscribe s).map fun r => (r.2, st.2 ++ [(s, r.1)])
  | .publish e => (st.1.Publish e).map fun eb => (eb, st.2)
  | .close => st.1.Close.map fun eb => (eb, st.2)
  | .receive ch => some (st.1.receive ch, st.2)

/-- A sequence of calls on a bus, from the given state. -/
def runBusFrom : List BusOp → EventBus × List (String × Nat) → Option (EventBus × List (String × Nat))
  | [], st => some st
  | op :: ops, st => (stepBus st op).bind (runBusFrom ops)

/-- A sequence of calls on a bus made by `NewEventBus`. -/
def runBus (ops : List BusOp) : Option (EventBus × List (String × Nat)) :=
  runBusFrom ops (NewEventBus, [])

/-! ## The external collaborators (packages `session`, `session/git`, `config`) -/

/-- The external `session.Status`, an integer enumeration. -/
inductive SessionStatus where
  | Running
  | Ready
  | Loading
  | Paused
  | other (n : Nat)
deriving DecidableEq, Repr

/-- The external `git.DiffStats`. -/
structure GitDiffStats where
  Added : Int
  Removed : Int
  Content : String
deriving DecidableEq, Repr

/-- The external `session.DiffStatsData`. -/
structure DiffStatsData where
  Added : Int
  Removed : Int
  Content : String
deriving DecidableEq, Repr

/-- The external `session.GitWorktreeData`, a descriptor the engine only copies. -/
abbrev GitWorktreeData := String

/-- The external `session.InstanceData`. -/
structure InstanceData where
  Title : String
  Path : String
  Branch : String
  Status : SessionStatus
  Program : String
  AutoYes : Bool
  CreatedAt : Time
  UpdatedAt : Time
  Worktree : GitWorktreeData
  DiffStats : DiffStatsData
deriving DecidableEq, Repr

/-- The external `session.InstanceOptions`. -/
structure InstanceOptions where
  Title : String
  Path : String
  Program : String
  AutoYes : Bool
deriving DecidableEq, Repr

/-- The external `session.Instance`: the exported fields that the engine reads
and writes (`Title`, `Status`, `AutoYes`); `handle` stands for the rest of its
state, which only its own methods read. -/
structure Instance where
  Title : String
  Status : SessionStatus
  AutoYes : Bool
  handle : Nat
deriving DecidableEq, Repr

/-- The external `config.Config`. -/
structure Config where
  DefaultProgram : String
  AutoYes : Bool
  DaemonPollInterval : Nat
  BranchPrefix : String
deriving DecidableEq, Repr

/-- The external `config.StateManager` (the state backend). -/
structure StateManager where
  instancesData : String
  helpScreensSeen : Nat
deriving DecidableEq, Repr

/-- The external `session.Storage`, made from a state backend. -/
structure Storage where
  state : StateManager
deriving DecidableEq, Repr

/-- Go `error` values: one constructor for each message of the package (with the
name the specification gives the failure), `external` for an error made by a
collaborator, `wrap ctx cause` for `fmt.Errorf(ctx + ": %w", cause)`. -/
inductive Error where
  /-- ConfigInvalid: "config cannot be nil". -/
  | configNil
  /-- ConfigInvalid: "appState cannot be nil". -/
  | appStateNil
  /-- NotStarted: "engine not started". -/
  | notStarted
  /-- AlreadyStarted: "engine already started". -/
  | alreadyStarted
  /-- DuplicateTitle: "session with title '%s' already exists". -/
  | titleExists (title : String)
  /-- NotFound: "session not found: %s". -/
  | notFound (sessionID : String)
  | external (msg : String)
  | wrap (ctx : String) (cause : Error)
deriving DecidableEq, Repr

/-- The answers of the external collaborators during one call of the engine.
A method with a pointer receiver returns the receiver after the call, next to
its result. `now k` is the value of the call's `k`-th `time.Now()`. -/
structure Ext where
  now : Nat → Time
  /-- `time.Parse("2006-01-02T15:04:05Z07:00", s)`. -/
  parseTime : String → Except Error Time
  /-- `t.Format("2006-01-02T15:04:05Z07:00")`. -/
  formatTime : Time → String
  NewInstance : InstanceOptions → Except Error Instance
  FromInstanceData : InstanceData → Except Error Instance
  ToInstanceData : Instance → InstanceData
  Start : Instance → Bool → Instance × Option Error
  SendPrompt : Instance → String → Instance × Option Error
  Pause : Instance → Instance × Option Error
  Resume : Instance → Instance × Option Error
  Kill : Instance → Instance × Option Error
  Preview : Instance → Except Error String
  UpdateDiffStats : Instance → Instance × Option Error
  GetDiffStats : Instance → Option GitDiffStats
  HasUpdated : Instance → Instance × Bool × Bool
  TapEnter : Instance → Instance
  NewStorage : StateManager → Except Error Storage
  LoadInstances : Storage → Except Error (List Instance)
  SaveInstances : Storage → List Instance → Storage × Option Error
  SaveConfig : Config → Option Error

/-! ## types.go, continued -/

/-- Go `type SessionOpts struct`. -/
structure SessionOpts where
  Title : String
  Path : String
  Program : String
  AutoYes : Bool
  Prompt : String
deriving DecidableEq, Repr

/-- Go `type SessionInfo struct`. -/
structure SessionInfo where
  ID : String
  Title : String
  Path : String
  Branch : String
  Status : Status
  Program : String
  AutoYes : Bool
  CreatedAt : Time
  UpdatedAt : Time
  DiffStats : Option DiffStats
deriving DecidableEq, Repr

/-- Go `convertStatus`. -/
def convertStatus : SessionStatus → Status
  | .Running => StatusRunning
  | .Ready => StatusReady
  | .Loading => StatusLoading
  | .Paused => StatusPaused
  | .other _ => StatusReady

/-- Go `convertToSessionStatus`. -/
def convertToSessionStatus (s : Status) : SessionStatus :=
  if s = StatusRunning then .Running
  else if s = StatusReady then .Ready
  else if s = StatusLoading then .Loading
  else if s = StatusPaused then .Paused
  else .Ready

/-- Go `convertDiffStats`. -/
def convertDiffStats : Option GitDiffStats → Option DiffStats
  | none => none
  | some stats => some { Added := stats.Added, Removed := stats.Removed, Content := stats.Content }

/-! ## storage.go -/

/-- Go `type SessionData struct`. -/
structure SessionData where
  ID : String
  Title : String
  Path : String
  Branch : String
  Status : Status
  Program : String
  AutoYes : Bool
  CreatedAt : String
  UpdatedAt : String
  Worktree : GitWorktreeData
  DiffStats : DiffStatsData
deriving DecidableEq, Repr

/-- Go `type fileStorage struct`. -/
structure fileStorage where
  sessionStorage : Storage
  configPath : String
deriving DecidableEq, Repr

/-- Go `NewFileStorage`. -/
def NewFileStorage (x : Ext) (appState : StateManager) : Except Error fileStorage :=
  match x.NewStorage appState with
  | .error err => .error (.wrap "failed to create session storage" err)
  | .ok sessionStorage => .ok { sessionStorage := sessionStorage, configPath := "" }

/-- Go `generateSessionID`. -/
def generateSessionID (title : String) : String := title

/-- Go `parseTime`. -/
def parseTime (x : Ext) (timeStr : String) : Except Error Time := x.parseTime timeStr

/-- Go `(*fileStorage).LoadSessions`. -/
def fileStorage.LoadSessions (fs : fileStorage) (x : Ext) : Except Error (List SessionData) :=
  match x.LoadInstances fs.sessionStorage with
  | .error err => .error (.wrap "failed to load instances" err)
  | .ok instances =>
    .ok (instances.map fun inst =>
      let data := x.ToInstanceData inst
      { ID := generateSessionID data.Title
        Title := data.Title
        Path := data.Path
        Branch := data.Branch
        Status := convertStatus data.Status
        Program := data.Program
        AutoYes := data.AutoYes
        CreatedAt := x.formatTime data.CreatedAt
        UpdatedAt := x.formatTime data.UpdatedAt
        Worktree := data.Worktree
        DiffStats := data.DiffStats })

/-- The body of the loop of `(*fileStorage).SaveSessions`: the instance made
from one record, or the error the function returns. -/
def sessionDataToInstance (x : Ext) (sessionData : SessionData) : Except Error Instance :=
  match parseTime x sessionData.CreatedAt with
  | .error err => .error (.wrap ("failed to parse created_at for session " ++ sessionData.ID) err)
  | .ok createdAt =>
    match parseTime x sessionData.UpdatedAt with
    | .error err => .error (.wrap ("failed to parse updated_at for session " ++ sessionData.ID) err)
    | .ok updatedAt =>
      match x.FromInstanceData
          { Title := sessionData.Title
            Path := sessionData.Path
            Branch := sessionData.Branch
            Status := convertToSessionStatus sessionData.Status
            Program := sessionData.Program
            AutoYes := sessionData.AutoYes
            CreatedAt := createdAt
            UpdatedAt := updatedAt
            Worktree := sessionData.Worktree
            DiffStats := sessionData.DiffStats } with
      | .error err =>
        .error (.wrap ("failed to create instance from data for session " ++ sessionData.ID) err)
      | .ok inst => .ok inst

/-- The loop of `(*fileStorage).SaveSessions`, which returns at the first error. -/
def sessionsToInstances (x : Ext) : List SessionData → Except Error (List Instance)
  | [] => .ok []
  | sessionData :: rest =>
    match sessionDataToInstance x sessionData with
    | .error err => .error err
    | .ok inst =>
      match sessionsToInstances x rest with
      | .error err => .error err
      | .ok instances => .ok (inst :: instances)

/-- Go `(*fileStorage).SaveSessions`: the storage afterwards and the error. -/
def fileStorage.SaveSessions (fs : fileStorage) (x : Ext) (sessions : List SessionData) :
    fileStorage × Option Error :=
  match sessionsToInstances x sessions with
  | .error err => (fs, some err)
  | .ok instances =>
    let r := x.SaveInstances fs.sessionStorage instances
    ({ fs with sessionStorage := r.1 }, r.2)

/-- Go `(*fileStorage).SaveConfig`. -/
def fileStorage.SaveConfig (_fs : fileStorage) (x : Ext) (cfg : Config) : Option Error :=
  x.SaveConfig cfg

/-! ## manager.go -/

/-- Go `type sessionWrapper struct`. `stopCh` tells whether the wrapper's stop
channel is closed; `watchers` counts the `watchSession` goroutines started on
this wrapper that have not returned. -/
structure sessionWrapper where
  inst : Instance
  id : String
  lastStdout : String
  lastDiff : Option DiffStats
  stopCh : Bool
  watchers : Nat
deriving DecidableEq, Repr

/-- The calls the manager makes on session handles. -/
inductive Call where
  | NewInstance (opts : InstanceOptions)
  | FromInstanceData (data : InstanceData)
  | Start (inst : Instance)
  | SendPrompt (inst : Instance) (prompt : String)
  | Pause (inst : Instance)
  | Resume (inst : Instance)
  | Kill (inst : Instance)
deriving DecidableEq, Repr

/-- Go `type manager struct`. `stopCh` tells whether the manager-wide stop
channel is closed and `wg` is the counter of the wait group. Two lists record
what the manager did, in order: `published`, the events it passed to
`eventBus.Publish`, and `calls`, its calls on session handles. -/
structure manager where
  sessions : List (String × sessionWrapper)
  eventBus : EventBus
  cfg : Option Config
  store : fileStorage
  stopCh : Bool
  wg : Nat
  published : List Event
  calls : List Call
deriving DecidableEq, Repr

/-- Go `newManager`. -/
def newManager (cfg : Option Config) (store : fileStorage) (eventBus : EventBus) : manager :=
  { sessions := [], eventBus := eventBus, cfg := cfg, store := store, stopCh := false, wg := 0,
    published := [], calls := [] }

/-- The statement `m.eventBus.Publish(event)`. -/
def manager.publish (m : manager) (event : Event) : Option manager :=
  (m.eventBus.Publish event).map fun eb =>
    { m with eventBus := eb, published := m.published ++ [event] }

/-- The statements `m.wg.Add(1); go m.watchSession(wrapper)`: the goroutine
returns at once when one of its two stop channels is closed, and keeps ticking
otherwise. The result is the counter of the wait group and the wrapper. -/
def manager.spawnWatcher (m : manager) (wrapper : sessionWrapper) : Nat × sessionWrapper :=
  if m.stopCh || wrapper.stopCh then (m.wg, wrapper)
  else (m.wg + 1, { wrapper with watchers := wrapper.watchers + 1 })

/-- Go `(*manager).restoreSession`. -/
def manager.restoreSession (m : manager) (x : Ext) (data : SessionData) : manager × Option Error :=
  match x.parseTime data.CreatedAt with
  | .error err => (m, some (.wrap "failed to parse created_at" err))
  | .ok createdAt =>
    match x.parseTime data.UpdatedAt with
    | .error err => (m, some (.wrap "failed to parse updated_at" err))
    | .ok updatedAt =>
      let instanceData : InstanceData :=
        { Title := data.Title
          Path := data.Path
          Branch := data.Branch
          Status := convertToSessionStatus data.Status
          Program := data.Program
          AutoYes := data.AutoYes
          CreatedAt := createdAt
          UpdatedAt := updatedAt
          Worktree := data.Worktree
          DiffStats := data.DiffStats }
      let m1 := { m with calls := m.calls ++ [.FromInstanceData instanceData] }
      match x.FromInstanceData instanceData with
      | .error err => (m1, some (.wrap "failed to restore instance" err))
      | .ok inst =>
        let wrapper : sessionWrapper :=
          { inst := inst, id := data.ID, lastStdout := "", lastDiff := none, stopCh := false,
            watchers := 0 }
        if data.Status ≠ StatusPaused then
          let r := m1.spawnWatcher wrapper
          ({ m1 with sessions := mapInsert data.ID r.2 m1.sessions, wg := r.1 }, none)
        else
          ({ m1 with sessions := mapInsert data.ID wrapper m1.sessions }, none)

/-- The loop of `(*manager).Start`: a record that fails to restore is skipped. -/
def manager.restoreAll (m : manager) (x : Ext) : List SessionData → manager
  | [] => m
  | data :: rest => manager.restoreAll (m.restoreSession x data).1 x rest

/-- Go `(*manager).Start`. -/
def manager.Start (m : manager) (x : Ext) : manager × Option Error :=
  match m.store.LoadSessions x with
  | .error err => (m, some (.wrap "failed to load sessions" err))
  | .ok sessionData => (m.restoreAll x sessionData, none)

/-- The record `(*manager).saveAll` makes from one wrapper. -/
def wrapperToSessionData (x : Ext) (wrapper : sessionWrapper) : SessionData :=
  let data := x.ToInstanceData wrapper.inst
  { ID := wrapper.id
    Title := data.Title
    Path := data.Path
    Branch := data.Branch
    Status := convertStatus data.Status
    Program := data.Program
    AutoYes := data.AutoYes
    CreatedAt := x.formatTime data.CreatedAt
    UpdatedAt := x.formatTime data.UpdatedAt
    Worktree := data.Worktree
    DiffStats := data.DiffStats }

/-- Go `(*manager).saveAll`. -/
def manager.saveAll (m : manager) (x : Ext) : manager × Option Error :=
  let r := m.store.SaveSessions x (m.sessions.map fun kw => wrapperToSessionData x kw.2)
  ({ m with store := r.1 }, r.2)

/-- Go `(*manager).Stop`: `close(m.stopCh)` makes every watcher return, which
`m.wg.Wait()` waits for. -/
def manager.Stop (m : manager) (x : Ext) : Option (manager × Option Error) :=
  if m.stopCh then none
  else
    let m1 : manager := { m with
      stopCh := true
      wg := 0
      sessions := m.sessions.map fun (kw : String × sessionWrapper) =>
        (kw.1, { kw.2 with watchers := 0 }) }
    match m1.saveAll x with
    | (m2, some err) => some (m2, some (.wrap "failed to save sessions" err))
    | (m2, none) => some (m2, none)

/-- Go `(*manager).Create`. -/
def manager.Create (m : manager) (x : Ext) (opts : SessionOpts) :
    Option (manager × Except Error String) :=
  if m.sessions.any fun kw => kw.2.inst.Title = opts.Title then
    some (m, .error (.titleExists opts.Title))
  else
    let instanceOpts : InstanceOptions :=
      { Title := opts.Title, Path := opts.Path, Program := opts.Program, AutoYes := opts.AutoYes }
    let m1 := { m with calls := m.calls ++ [.NewInstance instanceOpts] }
    match x.NewInstance instanceOpts with
    | .error err => some (m1, .error (.wrap "failed to create instance" err))
    | .ok inst0 =>
      let inst1 := { inst0 with AutoYes := opts.AutoYes }
      let m2 := { m1 with calls := m1.calls ++ [.Start inst1] }
      match x.Start inst1 true with
      | (_, some err) => some (m2, .error (.wrap "failed to start instance" err))
      | (inst2, none) =>
        let inst3 := if opts.Prompt ≠ "" then (x.SendPrompt inst2 opts.Prompt).1 else inst2
        let m3 : manager := { m2 with
          calls := m2.calls ++
            (if opts.Prompt ≠ "" then [Call.SendPrompt inst2 opts.Prompt] else []) }
        let sessionID := generateSessionID opts.Title
        let wrapper : sessionWrapper :=
          { inst := inst3, id := sessionID, lastStdout := "", lastDiff := none, stopCh := false,
            watchers := 0 }
        let r := m3.spawnWatcher wrapper
        let m4 := { m3 with sessions := mapInsert sessionID r.2 m3.sessions, wg := r.1 }
        (m4.publish (createEvent (x.now 0) sessionID EventState
          (.state { Previous := StatusLoading, Current := convertStatus inst3.Status }))).map
          fun m5 => (m5, .ok sessionID)

/-- Go `(*manager).Get`. -/
def manager.Get (m : manager) (sessionID : String) : Except Error sessionWrapper :=
  match mapLookup m.sessions sessionID with
  | none => .error (.notFound sessionID)
  | some wrapper => .ok wrapper

/-- Go `(*manager).wrapperToSessionInfo`. -/
def manager.wrapperToSessionInfo (_m : manager) (x : Ext) (wrapper : sessionWrapper) : SessionInfo :=
  let data := x.ToInstanceData wrapper.inst
  { ID := wrapper.id
    Title := data.Title
    Path := data.Path
    Branch := data.Branch
    Status := convertStatus data.Status
    Program := data.Program
    AutoYes := data.AutoYes
    CreatedAt := data.CreatedAt
    UpdatedAt := data.UpdatedAt
    DiffStats := convertDiffStats (x.GetDiffStats wrapper.inst) }

/-- Go `(*manager).List`, in the order in which the model ranges over the map. -/
def manager.List (m : manager) (x : Ext) : List SessionInfo :=
  m.sessions.map fun kw => m.wrapperToSessionInfo x kw.2

/-- Go `(*manager).Pause`. The receiver of the external `Pause` is the wrapper's
handle, so the registry holds the handle as that call leaves it. -/
def manager.Pause (m : manager) (x : Ext) (sessionID : String) : Option (manager × Option Error) :=
  match m.Get sessionID with
  | .error err => some (m, some err)
  | .ok wrapper =>
    let prevStatus := convertStatus wrapper.inst.Status
    let r := x.Pause wrapper.inst
    let m1 := { m with
      sessions := mapInsert sessionID { wrapper with inst := r.1 } m.sessions
      calls := m.calls ++ [.Pause wrapper.inst] }
    match r.2 with
    | some err => some (m1, some (.wrap "failed to pause session" err))
    | none =>
      (m1.publish (createEvent (x.now 0) sessionID EventState
        (.state { Previous := prevStatus, Current := StatusPaused }))).map fun m2 => (m2, none)

/-- Go `(*manager).Resume`. -/
def manager.Resume (m : manager) (x : Ext) (sessionID : String) : Option (manager × Option Error) :=
  match m.Get sessionID with
  | .error err => some (m, some err)
  | .ok wrapper =>
    let prevStatus := convertStatus wrapper.inst.Status
    let r := x.Resume wrapper.inst
    let m1 := { m with
      sessions := mapInsert sessionID { wrapper with inst := r.1 } m.sessions
      calls := m.calls ++ [.Resume wrapper.inst] }
    match r.2 with
    | some err => some (m1, some (.wrap "failed to resume session" err))
    | none =>
      (m1.publish (createEvent (x.now 0) sessionID EventState
        (.state { Previous := prevStatus, Current := convertStatus r.1.Status }))).map
        fun m2 => (m2, none)

/-- Go `(*manager).Kill`. `close(wrapper.stopCh)` makes the wrapper's watchers
return. -/
def manager.Kill (m : manager) (x : Ext) (sessionID : String) : Option (manager × Option Error) :=
  match mapLookup m.sessions sessionID with
  | none => some (m, some (.notFound sessionID))
  | some wrapper =>
    if wrapper.stopCh then none
    else
      let r := x.Kill wrapper.inst
      let wrapper1 : sessionWrapper := { wrapper with stopCh := true, watchers := 0, inst := r.1 }
      let m1 : manager :=
        { m with wg := m.wg - wrapper.watchers, calls := m.calls ++ [.Kill wrapper.inst] }
      match r.2 with
      | some err =>
        some ({ m1 with sessions := mapInsert sessionID wrapper1 m.sessions },
          some (.wrap "failed to kill session" err))
      | none =>
        let m2 : manager := { m1 with sessions := mapDelete sessionID m.sessions }
        (m2.publish (createEvent (x.now 0) sessionID EventState
          (.state { Previous := convertStatus r.1.Status, Current := StatusPaused }))).map
          fun m3 => (m3, none)

/-- Go `type Engine struct`. The fields `store` and `eventBus` hold the pointers
that `mgr.store` and `mgr.eventBus` hold, and are read there. -/
structure Engine where
  mgr : manager
  cfg : Option Config
  started : Bool
deriving DecidableEq, Repr

/-- Go `New`; a nil argument is `none`. -/
def New (x : Ext) (cfg : Option Config) (appState : Option StateManager) : Except Error Engine :=
  match cfg with
  | none => .error .configNil
  | some c =>
    match appState with
    | none => .error .appStateNil
    | some a =>
      match NewFileStorage x a with
      | .error err => .error (.wrap "failed to create storage" err)
      | .ok store => .ok { mgr := newManager (some c) store NewEventBus, cfg := some c, started := false }

/-- Go `(*Engine).Start`. -/
def Engine.Start (e : Engine) (x : Ext) : Engine × Option Error :=
  if e.started then (e, some .alreadyStarted)
  else
    match e.mgr.Start x with
    | (m, some err) => ({ e with mgr := m }, some (.wrap "failed to start manager" err))
    | (m, none) => ({ e with mgr := m, started := true }, none)

/-- Go `(*Engine).Close`. -/
def Engine.Close (e : Engine) (x : Ext) : Option (Engine × Option Error) :=
  if !e.started then some (e, none)
  else
    (e.mgr.Stop x).bind fun r =>
      match r.2 with
      | some err => some ({ e with mgr := r.1 }, some (.wrap "failed to stop manager" err))
      | none =>
        r.1.eventBus.Close.map fun eb =>
          ({ e with mgr := { r.1 with eventBus := eb }, started := false }, none)

/-- Go `(*Engine).StartSession`. -/
def Engine.StartSession (e : Engine) (x : Ext) (opts : SessionOpts) :
    Option (Engine × Except Error String) :=
  if !e.started then some (e, .error .notStarted)
  else (e.mgr.Create x opts).map fun r => ({ e with mgr := r.1 }, r.2)

/-- Go `(*Engine).Pause`. -/
def Engine.Pause (e : Engine) (x : Ext) (sessionID : String) : Option (Engine × Option Error) :=
  if !e.started then some (e, some .notStarted)
  else (e.mgr.Pause x sessionID).map fun r => ({ e with mgr := r.1 }, r.2)

/-- Go `(*Engine).Resume`. -/
def Engine.Resume (e : Engine) (x : Ext) (sessionID : String) : Option (Engine × Option Error) :=
  if !e.started then some (e, some .notStarted)
  else (e.mgr.Resume x sessionID).map fun r => ({ e with mgr := r.1 }, r.2)

/-- Go `(*Engine).Kill`. -/
def Engine.Kill (e : Engine) (x : Ext) (sessionID : String) : Option (Engine × Option Error) :=
  if !e.started then some (e, some .notStarted)
  else (e.mgr.Kill x sessionID).map fun r => ({ e with mgr := r.1 }, r.2)

/-- Go `(*Engine).List`; the result type has no error. -/
def Engine.List (e : Engine) (x : Ext) : List SessionInfo :=
  if !e.started then []
  else e.mgr.List x

/-- Go `(*Engine).Get`. -/
def Engine.Get (e : Engine) (x : Ext) (sessionID : String) : Except Error SessionInfo :=
  if !e.started then .error .notStarted
  else
    match e.mgr.Get sessionID with
    | .error err => .error err
    | .ok wrapper => .ok (e.mgr.wrapperToSessionInfo x wrapper)

/-- Go `(*Engine).Events`: the engine afterwards, and the channel or the error. -/
def Engine.Events (e : Engine) (sessionID : String) : Option (Engine × Except Error Nat) :=
  if !e.started then some (e, .error .notStarted)
  else
    (e.mgr.eventBus.Subscribe sessionID).map fun r =>
      ({ e with mgr := { e.mgr with eventBus := r.2 } }, .ok r.1)

/-- Go `(*Engine).IsStarted`. -/
def Engine.IsStarted (e : Engine) : Bool := e.started

/-! ## Predicates used to state the properties -/

/-- What a non-blocking send does to an open channel: the event is queued when
there is room, and the channel is left as it is otherwise. -/
def Chan.push (event : Event) (c : Chan) : Chan :=
  if c.buf.length < c.cap then { c with buf := c.buf ++ [event] } else c

/-- What `close` does to a channel. -/
def Chan.close (c : Chan) : Chan := { c with closed := true }

/-- Every channel registered with the bus: the global subscribers, then the
subscribers of the sessions. -/
def allSubs (eb : EventBus) : List Nat := eb.globalSubs ++ sessionSubs eb.subscribers

/-- The channels `Publish(event)` sends to: the global subscribers, then the
subscribers of the event's session. -/
def publishTargets (eb : EventBus) (event : Event) : List Nat :=
  eb.globalSubs ++ ((eb.subscribers.bind fun m => mapLookup m event.SessionID).getD [])

/-- The channel `c` is registered with the bus the way `Subscribe(s)` registers
the channel it returns: as a global subscriber when `s` is empty, under the
session `s` otherwise. -/
def SubscribedTo (eb : EventBus) (s : String) (c : Nat) : Prop :=
  if s = "" then c ∈ eb.globalSubs
  else c ∈ ((eb.subscribers.bind fun m => mapLookup m s).getD [])

/-- The invariant of the bus: the registered channels are pairwise distinct,
open and of capacity 100; no channel holds more events than its capacity, which
is at most 100; an open bus has a map; a channel that is not registered is
closed; a closed bus registers nothing. -/
structure BusInv (eb : EventBus) : Prop where
  nodup : (allSubs eb).Nodup
  live : ∀ c ∈ allSubs eb, ∃ ch : Chan, eb.chans[c]? = some ch ∧ ch.closed = false ∧ ch.cap = 100
  bound : ∀ (c : Nat) (ch : Chan), eb.chans[c]? = some ch → ch.buf.length ≤ ch.cap ∧ ch.cap ≤ 100
  hasMap : eb.closed = false → ∃ m, eb.subscribers = some m
  owned : ∀ (c : Nat) (ch : Chan), eb.chans[c]? = some ch → c ∈ allSubs eb ∨ ch.closed = true
  released : eb.closed = true → eb.globalSubs = [] ∧ eb.subscribers = none

/-- The invariant of a run: the invariant of the bus, and every channel that a
`Subscribe(s)` returned exists and, while the bus is open, is registered for `s`. -/
structure RunInv (st : EventBus × List (String × Nat)) : Prop where
  bus : BusInv st.1
  inRange : ∀ p ∈ st.2, p.2 < st.1.chans.length
  registered : st.1.closed = false → ∀ p ∈ st.2, SubscribedTo st.1 p.1 p.2

/-- The invariant of the registry: it is a map (no key occurs twice) and every
wrapper is stored under its own id. -/
def RegInv (sessions : List (String × sessionWrapper)) : Prop :=
  (sessions.map Prod.fst).Nodup ∧ ∀ kw ∈ sessions, kw.2.id = kw.1

/-- The collaborator constructs and starts a handle for the options, and the
handle carries the title of the options, also after the initial prompt was sent
to it. -/
def CreateSucceeds (x : Ext) (opts : SessionOpts) : Prop :=
  ∃ inst0 inst2 : Instance,
    x.NewInstance
      { Title := opts.Title, Path := opts.Path, Program := opts.Program, AutoYes := opts.AutoYes }
      = .ok inst0 ∧
    x.Start { inst0 with AutoYes := opts.AutoYes } true = (inst2, none) ∧
    inst2.Title = opts.Title ∧
    (opts.Prompt ≠ "" → (x.SendPrompt inst2 opts.Prompt).1.Title = opts.Title)

/-- A sequence of calls of `Create`, each answered by its own collaborators: the
manager afterwards and the results, in order. -/
def createAll : manager → List (Ext × SessionOpts) → Option (manager × List (Except Error String))
  | m, [] => some (m, [])
  | m, (x, opts) :: rest =>
    (m.Create x opts).bind fun r =>
      (createAll r.1 rest).map fun r2 => (r2.1, r.2 :: r2.2)

/-- Whether `restoreSession` registers a session for the record: the created-at
and the updated-at parse and the collaborator reconstructs the handle. -/
def restorable (x : Ext) (data : SessionData) : Bool :=
  match x.parseTime data.CreatedAt with
  | .error _ => false
  | .ok createdAt =>
    match x.parseTime data.UpdatedAt with
    | .error _ => false
    | .ok updatedAt =>
      match x.FromInstanceData
          { Title := data.Title
            Path := data.Path
            Branch := data.Branch
            Status := convertToSessionStatus data.Status
            Program := data.Program
            AutoYes := data.AutoYes
            CreatedAt := createdAt
            UpdatedAt := updatedAt
            Worktree := data.Worktree
            DiffStats := data.DiffStats } with
      | .error _ => false
      | .ok _ => true

/-- The value `instanceData` that the loop of `SaveSessions` makes from a record
and its two parsed time stamps. -/
def instanceDataOf (r : SessionData) (createdAt updatedAt : Time) : InstanceData :=
  { Title := r.Title
    Path := r.Path
    Branch := r.Branch
    Status := convertToSessionStatus r.Status
    Program := r.Program
    AutoYes := r.AutoYes
    CreatedAt := createdAt
    UpdatedAt := updatedAt
    Worktree := r.Worktree
    DiffStats := r.DiffStats }

/-- The record that the loop of `LoadSessions` makes from an instance. -/
def instanceToSessionData (x : Ext) (inst : Instance) : SessionData :=
  { ID := generateSessionID (x.ToInstanceData inst).Title
    Title := (x.ToInstanceData inst).Title
    Path := (x.ToInstanceData inst).Path
    Branch := (x.ToInstanceData inst).Branch
    Status := convertStatus (x.ToInstanceData inst).Status
    Program := (x.ToInstanceData inst).Program
    AutoYes := (x.ToInstanceData inst).AutoYes
    CreatedAt := x.formatTime (x.ToInstanceData inst).CreatedAt
    UpdatedAt := x.formatTime (x.ToInstanceData inst).UpdatedAt
    Worktree := (x.ToInstanceData inst).Worktree
    DiffStats := (x.ToInstanceData inst).DiffStats }

/-- A record as `SaveSessions` followed by `LoadSessions` returns it: the id is
made from the title and the status went to the handle's status and back. -/
def reloaded (r : SessionData) : SessionData :=
  { r with
    ID := generateSessionID r.Title
    Status := convertStatus (convertToSessionStatus r.Status) }

/-- The property of the watchers: every registered session whose handle is not
paused has exactly one running watcher. -/
def WatcherInv (m : manager) : Prop :=
  ∀ kw ∈ m.sessions, kw.2.inst.Status ≠ SessionStatus.Paused → kw.2.watchers = 1

/-! ## Scenarios -/

/-- The event published by `TestEventBus`. -/
def testEvent : Event := createEvent 0 "session1" EventStdout (.stdout { Content := "test" })

/-- The subscriptions of `TestEventBus`, and one for another session. -/
def testSubscribes : List BusOp := [.subscribe "session1", .subscribe "", .subscribe "s2"]

/-- The bus after `testSubscribes`. -/
def testBus : EventBus :=
  { chans := [{ cap := 100, buf := [], closed := false }, { cap := 100, buf := [], closed := false },
      { cap := 100, buf := [], closed := false }]
    subscribers := some [("session1", [0]), ("s2", [2])]
    globalSubs := [1]
    closed := false }

/-- The calls of `TestEventBus`: two subscriptions, a publication, `Close`. -/
def testCloseOps : List BusOp :=
  [.subscribe "session1", .subscribe "", .publish testEvent, .close]

/-- The bus after `testCloseOps`: both channels hold the event and are closed. -/
def testClosedBus : EventBus :=
  { chans := [{ cap := 100, buf := [testEvent], closed := true },
      { cap := 100, buf := [testEvent], closed := true }]
    subscribers := none
    globalSubs := []
    closed := true }

/-- A subscriber of "session1" that never receives and a global subscriber that
received once, after 100 publications. -/
def fullQueueOps : List BusOp :=
  .subscribe "session1" :: .subscribe "" :: (List.replicate 100 (.publish testEvent) ++ [.receive 1])

/-- The bus after `fullQueueOps`: the first queue is full, the second is not. -/
def fullQueueBus : EventBus :=
  { chans := [{ cap := 100, buf := List.replicate 100 testEvent, closed := false },
      { cap := 100, buf := List.replicate 99 testEvent, closed := false }]
    subscribers := some [("session1", [0])]
    globalSubs := [1]
    closed := false }

/-- The configuration of `TestEngineErrorHandling`. -/
def testCfg : Config :=
  { DefaultProgram := "test", AutoYes := false, DaemonPollInterval := 0, BranchPrefix := "" }

/-- The state backend of the tests, `&MockStateManager{}`. -/
def testState : StateManager := { instancesData := "", helpScreensSeen := 0 }

/-- Collaborators that never fail: a handle carries the title of its options and
is running once started, paused once paused; a time is written as that many
characters. -/
def testExt : Ext where
  now := fun _ => 0
  parseTime := fun s => .ok s.length
  formatTime := fun t => String.mk (List.replicate t 'x')
  NewInstance := fun o =>
    .ok { Title := o.Title, Status := .Loading, AutoYes := o.AutoYes, handle := 0 }
  FromInstanceData := fun d =>
    .ok { Title := d.Title, Status := d.Status, AutoYes := d.AutoYes, handle := 0 }
  ToInstanceData := fun i =>
    { Title := i.Title, Path := "", Branch := "", Status := i.Status, Program := "",
      AutoYes := i.AutoYes, CreatedAt := 0, UpdatedAt := 0, Worktree := "",
      DiffStats := { Added := 0, Removed := 0, Content := "" } }
  Start := fun i _ => ({ i with Status := .Running }, none)
  SendPrompt := fun i _ => (i, none)
  Pause := fun i => ({ i with Status := .Paused }, none)
  Resume := fun i => ({ i with Status := .Running }, none)
  Kill := fun i => (i, none)
  Preview := fun _ => .ok ""
  UpdateDiffStats := fun i => (i, none)
  GetDiffStats := fun _ => none
  HasUpdated := fun i => (i, false, false)
  TapEnter := fun i => i
  NewStorage := fun a => .ok { state := a }
  LoadInstances := fun _ => .ok []
  SaveInstances := fun s _ => (s, none)
  SaveConfig := fun _ => none

/-- The storage made by `NewFileStorage` from `testState`. -/
def testStore : fileStorage := { sessionStorage := { state := testState }, configPath := "" }

/-- The engine `New(cfg, &MockStateManager{})` of `TestEngineErrorHandling`. -/
def freshEngine : Engine :=
  { mgr := newManager (some testCfg) testStore NewEventBus, cfg := some testCfg, started := false }

/-- The options `{title: "a"}`. -/
def optsA : SessionOpts :=
  { Title := "a", Path := "", Program := "", AutoYes := false, Prompt := "" }

/-- A manager made by `newManager` with a new bus. -/
def testManager : manager := newManager (some testCfg) testStore NewEventBus

/-- The manager `testManager` after `Create({title: "a"})` answered by `testExt`. -/
def managerA : manager :=
  { testManager with
    sessions := [("a", { inst := { Title := "a", Status := .Running, AutoYes := false, handle := 0 }
                         id := "a", lastStdout := "", lastDiff := none, stopCh := false,
                         watchers := 1 })]
    wg := 1
    published := [createEvent 0 "a" EventState
      (.state { Previous := StatusLoading, Current := StatusRunning })]
    calls := [.NewInstance { Title := "a", Path := "", Program := "", AutoYes := false },
      .Start { Title := "a", Status := .Loading, AutoYes := false, handle := 0 }] }

/-- The options `{title: "b"}`, with an initial prompt. -/
def optsB : SessionOpts :=
  { Title := "b", Path := "", Program := "", AutoYes := true, Prompt := "go" }

/-- The collaborators of `testExt`, except that saving the instances fails. -/
def failingSaveExt : Ext :=
  { testExt with SaveInstances := fun s _ => (s, some (.external "write failed")) }

/-- The engine `freshEngine` after `Start` and `Events("")`: started, with one
global subscriber. -/
def subscribedEngine : Engine :=
  { freshEngine with
    started := true
    mgr := { freshEngine.mgr with
      eventBus :=
        { chans := [{ cap := 100, buf := [], closed := false }], subscribers := some [],
          globalSubs := [0], closed := false } } }

/-- The collaborators of `testExt`, except that the stored instances cannot be
loaded. -/
def failingLoadExt : Ext :=
  { testExt with LoadInstances := fun _ => .error (.external "read failed") }

/-- The collaborators of `testExt`, except that the text "bad" is no time, that
the instant 0 is written "bad", that a handle keeps the created-at it was made
from and gives it back, and that two instances are stored: "a", with the instant
0 as created-at, and "b", with the instant 1. -/
def corruptStoreExt : Ext :=
  { testExt with
    parseTime := fun s => if s = "bad" then .error (.external "cannot parse") else .ok s.length
    formatTime := fun t => if t = 0 then "bad" else String.mk (List.replicate t 'x')
    FromInstanceData := fun d =>
      .ok { Title := d.Title, Status := d.Status, AutoYes := d.AutoYes, handle := d.CreatedAt }
    ToInstanceData := fun i =>
      { Title := i.Title, Path := "", Branch := "", Status := i.Status, Program := "",
        AutoYes := i.AutoYes, CreatedAt := i.handle, UpdatedAt := 1, Worktree := "",
        DiffStats := { Added := 0, Removed := 0, Content := "" } }
    LoadInstances := fun _ =>
      .ok [{ Title := "a", Status := .Running, AutoYes := false, handle := 0 },
        { Title := "b", Status := .Running, AutoYes := false, handle := 1 }] }

/-- The record "a", whose created-at does not parse with `corruptStoreExt`. -/
def unparsableRecord : SessionData :=
  { ID := "a", Title := "a", Path := "", Branch := "", Status := "running", Program := "",
    AutoYes := false, CreatedAt := "bad", UpdatedAt := "x", Worktree := "",
    DiffStats := { Added := 0, Removed := 0, Content := "" } }

/-- The record "b", whose times parse with `corruptStoreExt`. -/
def parsableRecord : SessionData :=
  { ID := "b", Title := "b", Path := "", Branch := "", Status := "running", Program := "",
    AutoYes := false, CreatedAt := "x", UpdatedAt := "x", Worktree := "",
    DiffStats := { Added := 0, Removed := 0, Content := "" } }

/-- The records that `LoadSessions` returns with `corruptStoreExt`: the record
"a", whose created-at does not parse, and the record "b". -/
def corruptRecords : List SessionData := [unparsableRecord, parsableRecord]

/-- The handle that `corruptStoreExt` returns for the data of `parsableRecord`. -/
def parsableInstance : Instance :=
  { Title := "b", Status := .Running, AutoYes := false, handle := 1 }

/-- The entry of `List()` for `parsableRecord`: the fields of the record. -/
def parsableInfo : SessionInfo :=
  { ID := "b", Title := "b", Path := "", Branch := "", Status := "running", Program := "",
    AutoYes := false, CreatedAt := 1, UpdatedAt := 1, DiffStats := none }

/-- The record of a session "a" whose id is not made from its title. -/
def recordA : SessionData :=
  { ID := "session-1", Title := "a", Path := "/repo", Branch := "main", Status := "running",
    Program := "claude", AutoYes := false, CreatedAt := "x", UpdatedAt := "x", Worktree := "wt",
    DiffStats := { Added := 3, Removed := 1, Content := "diff" } }

/-- The record of a session "b" whose status is none of the four statuses. -/
def recordB : SessionData :=
  { ID := "b", Title := "b", Path := "/repo", Branch := "main", Status := "archived",
    Program := "claude", AutoYes := true, CreatedAt := "xx", UpdatedAt := "xx", Worktree := "wt",
    DiffStats := { Added := 3, Removed := 1, Content := "diff" } }

/-- The instances that `SaveSessions` makes from `recordA` and `recordB` with
`roundTripExt`. -/
def savedInstances : List Instance :=
  [{ Title := "a", Status := .Running, AutoYes := false, handle := 1 },
   { Title := "b", Status := .Ready, AutoYes := true, handle := 2 }]

/-- The collaborators of `testExt`, except that a handle keeps the created-at it
was made from and gives back the data of the records `recordA` and `recordB`,
and that the storage returns the instances `savedInstances`. -/
def roundTripExt : Ext :=
  { testExt with
    FromInstanceData := fun d =>
      .ok { Title := d.Title, Status := d.Status, AutoYes := d.AutoYes, handle := d.CreatedAt }
    ToInstanceData := fun i =>
      { Title := i.Title, Path := "/repo", Branch := "main", Status := i.Status,
        Program := "claude", AutoYes := i.AutoYes, CreatedAt := i.handle, UpdatedAt := i.handle,
        Worktree := "wt", DiffStats := { Added := 3, Removed := 1, Content := "diff" } }
    LoadInstances := fun _ => .ok savedInstances }

/-- The collaborators of `testExt`, except that one instance is stored, "p", in
the paused status. -/
def pausedStoreExt : Ext :=
  { testExt with
    LoadInstances := fun _ =>
      .ok [{ Title := "p", Status := .Paused, AutoYes := false, handle := 0 }] }

/-- The manager `testManager` after `Start` answered by `pausedStoreExt`: the
session "p" is registered, paused, without a watcher. -/
def managerP : manager :=
  { testManager with
    sessions := [("p", { inst := { Title := "p", Status := .Paused, AutoYes := false, handle := 0 }
                         id := "p", lastStdout := "", lastDiff := none, stopCh := false,
                         watchers := 0 })]
    calls := [.FromInstanceData
      { Title := "p", Path := "", Branch := "", Status := .Paused, Program := "", AutoYes := false,
        CreatedAt := 0, UpdatedAt := 0, Worktree := "",
        DiffStats := { Added := 0, Removed := 0, Content := "" } }] }

/-- The manager `managerP` after `Resume("p")` answered by `testExt`: the
session "p" is running, without a watcher. -/
def managerPResumed : manager :=
  { managerP with
    sessions := [("p", { inst := { Title := "p", Status := .Running, AutoYes := false,
                                   handle := 0 }
                         id := "p", lastStdout := "", lastDiff := none, stopCh := false,
                         watchers := 0 })]
    published := [createEvent 0 "p" EventState
      (.state { Previous := StatusPaused, Current := StatusRunning })]
    calls := managerP.calls ++
      [.Resume { Title := "p", Status := .Paused, AutoYes := false, handle := 0 }] }

/-- The collaborators of `testExt`, except that the external `Kill` fails. -/
def failingKillExt : Ext :=
  { testExt with Kill := fun i => (i, some (.external "kill failed")) }

/-- The manager `managerA` after `Kill("a")` answered by `failingKillExt`: the
session "a" is still registered and running, its stop channel is closed and its
watcher has returned. -/
def managerAKillFailed : manager :=
  { managerA with
    sessions := [("a", { inst := { Title := "a", Status := .Running, AutoYes := false, handle := 0 }
                         id := "a", lastStdout := "", lastDiff := none, stopCh := true,
                         watchers := 0 })]
    wg := 0
    calls := managerA.calls ++
      [.Kill { Title := "a", Status := .Running, AutoYes := false, handle := 0 }] }

/-! # Theorems -/

/-! ## Maps -/

theorem mapLookup_mapInsert_self {β : Type} (k : String) (v : β) (m : List (String × β)) :
    mapLookup (mapInsert k v m) k = some v := by
  induction m with
  | nil => simp [mapInsert, mapLookup]
  | cons p rest ih =>
    obtain ⟨k1, v1⟩ := p
    by_cases h : k1 = k
    · simp [mapInsert, mapLookup, h]
    · simp [mapInsert, mapLookup, h, ih]

theorem mapLookup_mapInsert_ne {β : Type} (k k2 : String) (v : β) (m : List (String × β))
    (h : k2 ≠ k) : mapLookup (mapInsert k v m) k2 = mapLookup m k2 := by
  induction m with
  | nil => simp [mapInsert, mapLookup, Ne.symm h]
  | cons p rest ih =>
    obtain ⟨k1, v1⟩ := p
    by_cases h1 : k1 = k
    · subst h1
      simp [mapInsert, mapLookup, Ne.symm h]
    · by_cases h2 : k1 = k2
      · subst h2
        simp [mapInsert, mapLookup, h1]
      · simp [mapInsert, mapLookup, h1, h2, ih]

theorem mapLookup_mem {β : Type} (m : List (String × β)) (k : String) (v : β)
    (h : mapLookup m k = some v) : (k, v) ∈ m := by
  induction m with
  | nil => simp [mapLookup] at h
  | cons p rest ih =>
    obtain ⟨k1, v1⟩ := p
    by_cases h1 : k1 = k
    · simp [mapLookup, h1] at h
      simp [h1, h]
    · simp [mapLookup, h1] at h
      exact List.mem_cons_of_mem _ (ih h)

/-- The channels of a map after one more channel is stored under a key are the
channels before and the new one. -/
theorem flatten_mapInsert_perm (k : String) (c : Nat) (m : List (String × List Nat)) :
    List.Perm ((mapInsert k ((mapLookup m k).getD [] ++ [c]) m).map Prod.snd).flatten
      (c :: (m.map Prod.snd).flatten) := by
  induction m with
  | nil => simp [mapInsert, mapLookup]
  | cons p rest ih =>
    obtain ⟨k1, v1⟩ := p
    by_cases h1 : k1 = k
    · simp only [mapInsert, mapLookup, h1, if_true, Option.getD_some, List.map_cons,
        List.flatten_cons, List.append_assoc, List.singleton_append]
      exact List.perm_middle
    · simp only [mapInsert, mapLookup, h1, if_false, List.map_cons, List.flatten_cons]
      exact (List.Perm.append_left v1 ih).trans List.perm_middle

/-! ## Channels -/

theorem trySend_live (chans : List Chan) (ch : Nat) (event : Event) (c : Chan)
    (h : chans[ch]? = some c) (hopen : c.closed = false) :
    trySend chans ch event = some (chans.set ch (c.push event)) := by
  unfold trySend
  rw [h]
  simp only [hopen, Bool.false_eq_true, if_false, Chan.push]
  split
  · rfl
  · congr 1
    apply List.ext_getElem?
    intro i
    by_cases hi : ch = i
    · subst hi
      rw [List.getElem?_set_self (List.getElem?_eq_some.mp h).1, h]
    · rw [List.getElem?_set_ne hi]

theorem closeChan_live (chans : List Chan) (ch : Nat) (c : Chan)
    (h : chans[ch]? = some c) (hopen : c.closed = false) :
    closeChan chans ch = some (chans.set ch c.close) := by
  unfold closeChan
  rw [h]
  simp [hopen, Chan.close]

/-- A loop that replaces the channel at each index of a list `l` of distinct
open channels by its image under `f` succeeds, and changes exactly the channels
of `l`. -/
theorem loop_spec (f : Chan → Chan) (step : List Chan → Nat → Option (List Chan))
    (loop : List Nat → List Chan → Option (List Chan))
    (hnil : ∀ chans, loop [] chans = some chans)
    (hcons : ∀ ch rest chans, loop (ch :: rest) chans = (step chans ch).bind (loop rest))
    (hstep : ∀ chans ch c, chans[ch]? = some c → c.closed = false →
      step chans ch = some (chans.set ch (f c)))
    (l : List Nat) :
    ∀ chans : List Chan, l.Nodup →
      (∀ c ∈ l, ∃ ch : Chan, chans[c]? = some ch ∧ ch.closed = false) →
      ∃ chans2, loop l chans = some chans2 ∧ chans2.length = chans.length ∧
        ∀ i, chans2[i]? = if i ∈ l then (chans[i]?).map f else chans[i]? := by
  induction l with
  | nil =>
    intro chans _ _
    exact ⟨chans, hnil chans, rfl, fun i => by simp⟩
  | cons a rest ih =>
    intro chans hnd hlive
    obtain ⟨hnot, hnd2⟩ := List.nodup_cons.mp hnd
    obtain ⟨c, hc, hopen⟩ := hlive a (List.mem_cons_self _ _)
    have halt : a < chans.length := (List.getElem?_eq_some.mp hc).1
    have hlive2 : ∀ b ∈ rest, ∃ ch : Chan, (chans.set a (f c))[b]? = some ch ∧ ch.closed = false := by
      intro b hb
      have hne : a ≠ b := fun e => hnot (e ▸ hb)
      rw [List.getElem?_set_ne hne]
      exact hlive b (List.mem_cons_of_mem _ hb)
    obtain ⟨chans2, h2, hlen, hget⟩ := ih (chans.set a (f c)) hnd2 hlive2
    refine ⟨chans2, ?_, ?_, ?_⟩
    · rw [hcons, hstep chans a c hc hopen]
      exact h2
    · rw [hlen, List.length_set]
    · intro i
      rw [hget i]
      by_cases hia : i = a
      · subst hia
        simp [hnot, List.getElem?_set_self halt, hc]
      · have hai : a ≠ i := fun e => hia e.symm
        simp [hia, List.getElem?_set_ne hai]

theorem sendAll_spec (event : Event) (l : List Nat) (chans : List Chan) (hnd : l.Nodup)
    (hlive : ∀ c ∈ l, ∃ ch : Chan, chans[c]? = some ch ∧ ch.closed = false) :
    ∃ chans2, sendAll event l chans = some chans2 ∧ chans2.length = chans.length ∧
      ∀ i, chans2[i]? = if i ∈ l then (chans[i]?).map (Chan.push event) else chans[i]? :=
  loop_spec (Chan.push event) (fun chans ch => trySend chans ch event) (sendAll event)
    (fun _ => rfl) (fun _ _ _ => rfl)
    (fun chans ch c h hopen => trySend_live chans ch event c h hopen) l chans hnd hlive

theorem closeAll_spec (l : List Nat) (chans : List Chan) (hnd : l.Nodup)
    (hlive : ∀ c ∈ l, ∃ ch : Chan, chans[c]? = some ch ∧ ch.closed = false) :
    ∃ chans2, closeAll l chans = some chans2 ∧ chans2.length = chans.length ∧
      ∀ i, chans2[i]? = if i ∈ l then (chans[i]?).map Chan.close else chans[i]? :=
  loop_spec Chan.close closeChan closeAll (fun _ => rfl) (fun _ _ _ => rfl)
    closeChan_live l chans hnd hlive

theorem sendAll_append (event : Event) (l1 l2 : List Nat) (chans : List Chan) :
    sendAll event (l1 ++ l2) chans = (sendAll event l1 chans).bind (sendAll event l2) := by
  induction l1 generalizing chans with
  | nil => rfl
  | cons a rest ih =>
    simp only [List.cons_append, sendAll]
    cases trySend chans a event with
    | none => rfl
    | some c => simpa using ih c

theorem closeAll_append (l1 l2 : List Nat) (chans : List Chan) :
    closeAll (l1 ++ l2) chans = (closeAll l1 chans).bind (closeAll l2) := by
  induction l1 generalizing chans with
  | nil => rfl
  | cons a rest ih =>
    simp only [List.cons_append, closeAll]
    cases closeChan chans a with
    | none => rfl
    | some c => simpa using ih c

/-! ## The event bus -/

theorem Publish_eq (eb : EventBus) (event : Event) (hopen : eb.closed = false) :
    eb.Publish event =
      (sendAll event (publishTargets eb event) eb.chans).map fun chans2 =>
        { eb with chans := chans2 } := by
  unfold EventBus.Publish publishTargets
  rw [sendAll_append]
  simp only [hopen, Bool.false_eq_true, if_false]
  cases sendAll event eb.globalSubs eb.chans with
  | none => rfl
  | some chans1 =>
    cases eb.subscribers.bind fun m => mapLookup m event.SessionID with
    | none => simp [sendAll]
    | some subs => simp

theorem Close_eq (eb : EventBus) (hopen : eb.closed = false) :
    eb.Close =
      (closeAll (allSubs eb) eb.chans).map fun chans2 =>
        { chans := chans2, subscribers := none, globalSubs := [], closed := true } := by
  unfold EventBus.Close allSubs
  rw [closeAll_append]
  simp only [hopen, Bool.false_eq_true, if_false]
  cases closeAll eb.globalSubs eb.chans with
  | none => rfl
  | some chans1 => simp

theorem publishTargets_sublist (eb : EventBus) (event : Event) :
    List.Sublist (publishTargets eb event) (allSubs eb) := by
  unfold publishTargets allSubs sessionSubs
  apply List.Sublist.append_left
  cases hs : eb.subscribers with
  | none => simp
  | some m =>
    rcases hl : mapLookup m event.SessionID with _ | l
    · simp [hl]
    · have hmem : l ∈ m.map Prod.snd :=
        List.mem_map.mpr ⟨(event.SessionID, l), mapLookup_mem m _ l hl, rfl⟩
      simpa [hl] using List.sublist_flatten_of_mem hmem

theorem push_closed (event : Event) (c : Chan) : (c.push event).closed = c.closed := by
  unfold Chan.push
  split <;> rfl

theorem push_cap (event : Event) (c : Chan) : (c.push event).cap = c.cap := by
  unfold Chan.push
  split <;> rfl

theorem push_bound (event : Event) (c : Chan) (h : c.buf.length ≤ c.cap) :
    (c.push event).buf.length ≤ c.cap := by
  unfold Chan.push
  split
  · simp only [List.length_append, List.length_singleton]
    omega
  · exact h

theorem BusInv_New : BusInv NewEventBus where
  nodup := by simp [allSubs, sessionSubs, NewEventBus]
  live := by simp [allSubs, sessionSubs, NewEventBus]
  bound := by simp [NewEventBus]
  hasMap := fun _ => ⟨[], rfl⟩
  owned := by simp [NewEventBus]
  released := by simp [NewEventBus]

/-- `Publish` on a bus that satisfies the invariant returns, keeps the
invariant, and pushes the event on exactly the channels it targets. -/
theorem Publish_spec (eb : EventBus) (event : Event) (hinv : BusInv eb) :
    ∃ eb2, eb.Publish event = some eb2 ∧ BusInv eb2 ∧ eb2.closed = eb.closed ∧
      eb2.subscribers = eb.subscribers ∧ eb2.globalSubs = eb.globalSubs ∧
      eb2.chans.length = eb.chans.length ∧
      (eb.closed = true → eb2 = eb) ∧
      (eb.closed = false → ∀ i, eb2.chans[i]? =
        if i ∈ publishTargets eb event then (eb.chans[i]?).map (Chan.push event)
        else eb.chans[i]?) := by
  cases hc : eb.closed with
  | true =>
    refine ⟨eb, by simp [EventBus.Publish, hc], hinv, hc, rfl, rfl, rfl, fun _ => rfl, ?_⟩
    intro h
    cases h
  | false =>
    have hsub := publishTargets_sublist eb event
    have hlive : ∀ c ∈ publishTargets eb event,
        ∃ ch : Chan, eb.chans[c]? = some ch ∧ ch.closed = false := by
      intro c hcm
      obtain ⟨ch, h1, h2, _⟩ := hinv.live c (hsub.subset hcm)
      exact ⟨ch, h1, h2⟩
    obtain ⟨chans2, hsend, hlen, hget⟩ :=
      sendAll_spec event (publishTargets eb event) eb.chans (hinv.nodup.sublist hsub) hlive
    have hcases : ∀ (i : Nat) (ch2 : Chan), chans2[i]? = some ch2 →
        ∃ ch : Chan, eb.chans[i]? = some ch ∧ (ch2 = ch ∨ ch2 = ch.push event) := by
      intro i ch2 h2
      rw [hget i] at h2
      by_cases hi : i ∈ publishTargets eb event
      · rw [if_pos hi] at h2
        cases h3 : eb.chans[i]? with
        | none => simp [h3] at h2
        | some ch =>
          rw [h3] at h2
          exact ⟨ch, rfl, Or.inr (Option.some.inj h2).symm⟩
      · simp only [hi, if_false] at h2
        exact ⟨ch2, h2, Or.inl rfl⟩
    refine ⟨{ eb with chans := chans2 }, ?_, ?_, hc, rfl, rfl, hlen, ?_, fun _ => hget⟩
    · rw [Publish_eq eb event hc, hsend]
      rfl
    · refine ⟨hinv.nodup, ?_, ?_, hinv.hasMap, ?_, hinv.released⟩
      · intro c hcm
        obtain ⟨ch, h1, h2, h3⟩ := hinv.live c hcm
        by_cases hi : c ∈ publishTargets eb event
        · refine ⟨ch.push event, ?_, ?_, ?_⟩
          · show chans2[c]? = _
            rw [hget c]
            simp [hi, h1]
          · rw [push_closed, h2]
          · rw [push_cap, h3]
        · refine ⟨ch, ?_, h2, h3⟩
          show chans2[c]? = _
          rw [hget c]
          simp [hi, h1]
      · intro c ch2 h2
        obtain ⟨ch, h3, h4⟩ := hcases c ch2 h2
        obtain ⟨hb1, hb2⟩ := hinv.bound c ch h3
        rcases h4 with h4 | h4
        · subst h4
          exact ⟨hb1, hb2⟩
        · subst h4
          rw [push_cap]
          exact ⟨push_bound event ch hb1, hb2⟩
      · intro c ch2 h2
        obtain ⟨ch, h3, h4⟩ := hcases c ch2 h2
        rcases hinv.owned c ch h3 with h5 | h5
        · exact Or.inl h5
        · right
          rcases h4 with h4 | h4
          · subst h4
            exact h5
          · subst h4
            rw [push_closed, h5]
    · intro h
      cases h

theorem getElem?_concat_cases {α : Type} (l : List α) (a x : α) (i : Nat)
    (h : (l ++ [a])[i]? = some x) : l[i]? = some x ∨ (i = l.length ∧ x = a) := by
  by_cases hi : i < l.length
  · rw [List.getElem?_append_left hi] at h
    exact Or.inl h
  · have hlen : i < (l ++ [a]).length := (List.getElem?_eq_some.mp h).1
    simp only [List.length_append, List.length_singleton] at hlen
    have hil : i = l.length := by omega
    subst hil
    rw [List.getElem?_concat_length] at h
    exact Or.inr ⟨rfl, (Option.some.inj h).symm⟩

theorem allSubs_lt (eb : EventBus) (hinv : BusInv eb) (c : Nat) (h : c ∈ allSubs eb) :
    c < eb.chans.length := by
  obtain ⟨ch, h1, _⟩ := hinv.live c h
  exact (List.getElem?_eq_some.mp h1).1

theorem close_of_closed (c : Chan) (h : c.closed = true) : c.close = c := by
  cases c
  simp_all [Chan.close]

/-- `Subscribe` on a bus that satisfies the invariant returns a new channel and
keeps the invariant; on an open bus the channel is registered for the session
and the earlier registrations stay; on a closed bus nothing is registered and
the channel is closed. -/
theorem Subscribe_spec (eb : EventBus) (s : String) (hinv : BusInv eb) :
    ∃ eb2, eb.Subscribe s = some (eb.chans.length, eb2) ∧ BusInv eb2 ∧
      eb2.closed = eb.closed ∧
      (∃ c : Chan, eb2.chans = eb.chans ++ [c] ∧ c.buf = [] ∧ c.closed = eb.closed) ∧
      (eb.closed = false → SubscribedTo eb2 s eb.chans.length ∧
        ∀ s2 c, SubscribedTo eb s2 c → SubscribedTo eb2 s2 c) ∧
      (eb.closed = true → eb2.globalSubs = eb.globalSubs ∧ eb2.subscribers = eb.subscribers) := by
  cases hc : eb.closed with
  | true =>
    refine ⟨{ eb with chans := eb.chans ++ [{ cap := 0, buf := [], closed := true }] },
      by simp [EventBus.Subscribe, hc], ?_, hc, ⟨_, rfl, rfl, rfl⟩, ?_, fun _ => ⟨rfl, rfl⟩⟩
    · refine ⟨hinv.nodup, ?_, ?_, hinv.hasMap, ?_, hinv.released⟩
      · intro c hcm
        obtain ⟨ch, h1, h2⟩ := hinv.live c hcm
        refine ⟨ch, ?_, h2⟩
        show (eb.chans ++ _)[c]? = _
        rw [List.getElem?_append_left (allSubs_lt eb hinv c hcm)]
        exact h1
      · intro c ch h
        rcases getElem?_concat_cases _ _ _ _ h with h1 | ⟨_, h1⟩
        · exact hinv.bound c ch h1
        · subst h1
          simp
      · intro c ch h
        rcases getElem?_concat_cases _ _ _ _ h with h1 | ⟨_, h1⟩
        · exact hinv.owned c ch h1
        · subst h1
          exact Or.inr rfl
    · intro h
      cases h
  | false =>
    obtain ⟨m, hm⟩ := hinv.hasMap hc
    have hfresh : eb.chans.length ∉ allSubs eb := fun h =>
      Nat.lt_irrefl _ (allSubs_lt eb hinv _ h)
    -- the bus after the call, and its registered channels
    obtain ⟨eb2, heq, hchans, hclosed, hperm, hreg, hkeep, hmap⟩ :
        ∃ eb2 : EventBus, eb.Subscribe s = some (eb.chans.length, eb2) ∧
          eb2.chans = eb.chans ++ [{ cap := 100, buf := [], closed := false }] ∧
          eb2.closed = false ∧
          List.Perm (allSubs eb2) (eb.chans.length :: allSubs eb) ∧
          SubscribedTo eb2 s eb.chans.length ∧
          (∀ s2 c, SubscribedTo eb s2 c → SubscribedTo eb2 s2 c) ∧
          (∃ m2, eb2.subscribers = some m2) := by
      by_cases hs : s = ""
      · refine ⟨{ eb with
            chans := eb.chans ++ [{ cap := 100, buf := [], closed := false }]
            globalSubs := eb.globalSubs ++ [eb.chans.length] }, ?_, rfl, hc, ?_, ?_, ?_, ⟨m, hm⟩⟩
        · simp [EventBus.Subscribe, hc, hs]
        · show List.Perm ((eb.globalSubs ++ [eb.chans.length]) ++ sessionSubs eb.subscribers) _
          rw [List.append_assoc]
          exact List.perm_middle
        · simp [SubscribedTo, hs]
        · intro s2 c h
          unfold SubscribedTo at h ⊢
          by_cases hs2 : s2 = ""
          · simp only [hs2, if_true] at h ⊢
            exact List.mem_append_left _ h
          · simp only [hs2, if_false] at h ⊢
            exact h
      · refine ⟨{ eb with
            chans := eb.chans ++ [{ cap := 100, buf := [], closed := false }]
            subscribers := some (mapInsert s ((mapLookup m s).getD [] ++ [eb.chans.length]) m) },
          ?_, rfl, hc, ?_, ?_, ?_, ⟨_, rfl⟩⟩
        · simp [EventBus.Subscribe, hc, hs, hm]
        · show List.Perm (eb.globalSubs ++ sessionSubs (some _)) (_ :: (eb.globalSubs ++ sessionSubs _))
          rw [hm]
          simp only [sessionSubs, Option.getD_some]
          exact (List.Perm.append_left _ (flatten_mapInsert_perm s _ m)).trans List.perm_middle
        · simp [SubscribedTo, hs, mapLookup_mapInsert_self]
        · intro s2 c h
          unfold SubscribedTo at h ⊢
          by_cases hs2 : s2 = ""
          · simp only [hs2, if_true] at h ⊢
            exact h
          · simp only [hs2, if_false, hm, Option.some_bind] at h ⊢
            by_cases hss : s2 = s
            · subst hss
              rw [mapLookup_mapInsert_self]
              simp only [Option.getD_some]
              exact List.mem_append_left _ h
            · rw [mapLookup_mapInsert_ne s s2 _ m hss]
              exact h
    have hmem : ∀ c, c ∈ allSubs eb2 ↔ c = eb.chans.length ∨ c ∈ allSubs eb := by
      intro c
      rw [hperm.mem_iff, List.mem_cons]
    refine ⟨eb2, heq, ?_, hclosed, ⟨_, hchans, rfl, rfl⟩, fun _ => ⟨hreg, hkeep⟩, ?_⟩
    · refine ⟨?_, ?_, ?_, fun _ => hmap, ?_, ?_⟩
      · rw [hperm.nodup_iff]
        exact List.nodup_cons.mpr ⟨hfresh, hinv.nodup⟩
      · intro c hcm
        rw [hchans]
        rcases (hmem c).mp hcm with h1 | h1
        · subst h1
          exact ⟨_, List.getElem?_concat_length _ _, rfl, rfl⟩
        · obtain ⟨ch, h2, h3⟩ := hinv.live c h1
          refine ⟨ch, ?_, h3⟩
          rw [List.getElem?_append_left (allSubs_lt eb hinv c h1)]
          exact h2
      · intro c ch h
        rw [hchans] at h
        rcases getElem?_concat_cases _ _ _ _ h with h1 | ⟨_, h1⟩
        · exact hinv.bound c ch h1
        · subst h1
          simp
      · intro c ch h
        rw [hchans] at h
        rcases getElem?_concat_cases _ _ _ _ h with h1 | ⟨h0, h1⟩
        · rcases hinv.owned c ch h1 with h2 | h2
          · exact Or.inl ((hmem c).mpr (Or.inr h2))
          · exact Or.inr h2
        · exact Or.inl ((hmem c).mpr (Or.inl h0))
      · intro h
        rw [hclosed] at h
        cases h
    · intro h
      cases h

/-- `Close` on a bus that satisfies the invariant returns, keeps the invariant,
closes every channel and releases the subscriber lists; the queues are left as
they are. -/
theorem Close_spec (eb : EventBus) (hinv : BusInv eb) :
    ∃ eb2, eb.Close = some eb2 ∧ BusInv eb2 ∧ eb2.closed = true ∧
      eb2.globalSubs = [] ∧ eb2.subscribers = none ∧
      eb2.chans.length = eb.chans.length ∧
      (∀ (i : Nat) (ch : Chan), eb2.chans[i]? = some ch → ch.closed = true) ∧
      (∀ i : Nat, eb2.chans[i]? = (eb.chans[i]?).map Chan.close) ∧
      (eb.closed = true → eb2 = eb) := by
  cases hc : eb.closed with
  | true =>
    obtain ⟨hg, hs⟩ := hinv.released hc
    have hall : ∀ (i : Nat) (ch : Chan), eb.chans[i]? = some ch → ch.closed = true := by
      intro i ch h
      rcases hinv.owned i ch h with h1 | h1
      · simp [allSubs, sessionSubs, hg, hs] at h1
      · exact h1
    refine ⟨eb, by simp [EventBus.Close, hc], hinv, hc, hg, hs, rfl, hall, ?_, fun _ => rfl⟩
    intro i
    cases h : eb.chans[i]? with
    | none => rfl
    | some ch => simp [close_of_closed ch (hall i ch h)]
  | false =>
    have hlive : ∀ c ∈ allSubs eb, ∃ ch : Chan, eb.chans[c]? = some ch ∧ ch.closed = false := by
      intro c hcm
      obtain ⟨ch, h1, h2, _⟩ := hinv.live c hcm
      exact ⟨ch, h1, h2⟩
    obtain ⟨chans2, hclose, hlen, hget⟩ := closeAll_spec (allSubs eb) eb.chans hinv.nodup hlive
    have hget2 : ∀ i : Nat, chans2[i]? = (eb.chans[i]?).map Chan.close := by
      intro i
      rw [hget i]
      by_cases hi : i ∈ allSubs eb
      · simp [hi]
      · simp only [hi, if_false]
        cases h : eb.chans[i]? with
        | none => rfl
        | some ch =>
          rcases hinv.owned i ch h with h1 | h1
          · exact absurd h1 hi
          · simp [close_of_closed ch h1]
    have hall : ∀ (i : Nat) (ch : Chan), chans2[i]? = some ch → ch.closed = true := by
      intro i ch h
      rw [hget2 i] at h
      cases h3 : eb.chans[i]? with
      | none => simp [h3] at h
      | some ch0 =>
        rw [h3] at h
        rw [← Option.some.inj h]
        rfl
    refine ⟨{ chans := chans2, subscribers := none, globalSubs := [], closed := true }, ?_, ?_,
      rfl, rfl, rfl, hlen, hall, hget2, ?_⟩
    · rw [Close_eq eb hc, hclose]
      rfl
    · refine ⟨by simp [allSubs, sessionSubs], by simp [allSubs, sessionSubs], ?_, ?_,
        fun c ch h => Or.inr (hall c ch h), fun _ => ⟨rfl, rfl⟩⟩
      · intro c ch h
        have h2 : chans2[c]? = some ch := h
        rw [hget2 c] at h2
        cases h3 : eb.chans[c]? with
        | none => simp [h3] at h2
        | some ch0 =>
          rw [h3] at h2
          rw [← Option.some.inj h2]
          exact hinv.bound c ch0 h3
      · intro h
        cases h
    · intro h
      cases h

theorem SubscribedTo_congr (eb eb2 : EventBus) (hg : eb2.globalSubs = eb.globalSubs)
    (hs : eb2.subscribers = eb.subscribers) (s : String) (c : Nat) :
    SubscribedTo eb2 s c ↔ SubscribedTo eb s c := by
  unfold SubscribedTo
  rw [hg, hs]

theorem allSubs_congr (eb eb2 : EventBus) (hg : eb2.globalSubs = eb.globalSubs)
    (hs : eb2.subscribers = eb.subscribers) : allSubs eb2 = allSubs eb := by
  unfold allSubs
  rw [hg, hs]

theorem receive_cons (eb : EventBus) (ch : Nat) (c : Chan) (e : Event) (rest : List Event)
    (hch : eb.chans[ch]? = some c) (hb : c.buf = e :: rest) :
    eb.receive ch = { eb with chans := eb.chans.set ch { c with buf := rest } } := by
  simp [EventBus.receive, hch, hb]

/-- A receive keeps the invariant and changes no registration. -/
theorem receive_spec (eb : EventBus) (ch : Nat) (hinv : BusInv eb) :
    BusInv (eb.receive ch) ∧ (eb.receive ch).closed = eb.closed ∧
      (eb.receive ch).globalSubs = eb.globalSubs ∧
      (eb.receive ch).subscribers = eb.subscribers ∧
      (eb.receive ch).chans.length = eb.chans.length := by
  cases hch : eb.chans[ch]? with
  | none =>
    have h : eb.receive ch = eb := by simp [EventBus.receive, hch]
    rw [h]
    exact ⟨hinv, rfl, rfl, rfl, rfl⟩
  | some c =>
    cases hb : c.buf with
    | nil =>
      have h : eb.receive ch = eb := by simp [EventBus.receive, hch, hb]
      rw [h]
      exact ⟨hinv, rfl, rfl, rfl, rfl⟩
    | cons e rest =>
      rw [receive_cons eb ch c e rest hch hb]
      have hlt : ch < eb.chans.length := (List.getElem?_eq_some.mp hch).1
      have hcases : ∀ (i : Nat) (c2 : Chan),
          (eb.chans.set ch { c with buf := rest })[i]? = some c2 →
          ∃ c0 : Chan, eb.chans[i]? = some c0 ∧ c2.closed = c0.closed ∧ c2.cap = c0.cap ∧
            c2.buf.length ≤ c0.buf.length := by
        intro i c2 h
        by_cases hi : ch = i
        · subst hi
          rw [List.getElem?_set_self hlt] at h
          refine ⟨c, hch, ?_⟩
          rw [← Option.some.inj h, hb]
          simp
        · rw [List.getElem?_set_ne hi] at h
          exact ⟨c2, h, rfl, rfl, le_refl _⟩
      refine ⟨⟨hinv.nodup, ?_, ?_, hinv.hasMap, ?_, hinv.released⟩, rfl, rfl, rfl, ?_⟩
      · intro i hi
        obtain ⟨c0, h1, h2, h3⟩ := hinv.live i hi
        by_cases hci : ch = i
        · subst hci
          refine ⟨{ c with buf := rest }, List.getElem?_set_self hlt, ?_, ?_⟩
          · rw [hch] at h1
            rw [Option.some.inj h1]
            exact h2
          · rw [hch] at h1
            rw [Option.some.inj h1]
            exact h3
        · exact ⟨c0, (List.getElem?_set_ne hci).trans h1, h2, h3⟩
      · intro i c2 h
        obtain ⟨c0, h1, _, h3, h4⟩ := hcases i c2 h
        obtain ⟨hb1, hb2⟩ := hinv.bound i c0 h1
        rw [h3]
        exact ⟨le_trans h4 hb1, hb2⟩
      · intro i c2 h
        obtain ⟨c0, h1, h2, _⟩ := hcases i c2 h
        rcases hinv.owned i c0 h1 with h5 | h5
        · exact Or.inl h5
        · exact Or.inr (h2.trans h5)
      · simp

theorem RunInv_New : RunInv (NewEventBus, []) where
  bus := BusInv_New
  inRange := by simp
  registered := by simp

/-- One call on a bus that satisfies the invariant of runs returns and keeps it. -/
theorem stepBus_inv (st : EventBus × List (String × Nat)) (op : BusOp) (hinv : RunInv st) :
    ∃ st2, stepBus st op = some st2 ∧ RunInv st2 := by
  obtain ⟨eb, subs⟩ := st
  cases op with
  | subscribe s =>
    obtain ⟨eb2, h1, h2, h3, ⟨c, h4, _⟩, h5, h6⟩ := Subscribe_spec eb s hinv.bus
    refine ⟨(eb2, subs ++ [(s, eb.chans.length)]), by simp [stepBus, h1], h2, ?_, ?_⟩
    · intro p hp
      show p.2 < eb2.chans.length
      rw [h4, List.length_append, List.length_singleton]
      rcases List.mem_append.mp hp with hp1 | hp1
      · exact Nat.lt_succ_of_lt (hinv.inRange p hp1)
      · rw [List.mem_singleton.mp hp1]
        exact Nat.lt_succ_self _
    · intro hopen p hp
      have hopen0 : eb.closed = false := h3 ▸ hopen
      obtain ⟨hreg, hkeep⟩ := h5 hopen0
      rcases List.mem_append.mp hp with hp1 | hp1
      · exact hkeep p.1 p.2 (hinv.registered hopen0 p hp1)
      · rw [List.mem_singleton.mp hp1]
        exact hreg
  | publish e =>
    obtain ⟨eb2, h1, h2, h3, h4, h5, h6, _⟩ := Publish_spec eb e hinv.bus
    refine ⟨(eb2, subs), by simp [stepBus, h1], h2, ?_, ?_⟩
    · intro p hp
      show p.2 < eb2.chans.length
      rw [h6]
      exact hinv.inRange p hp
    · intro hopen p hp
      exact (SubscribedTo_congr eb eb2 h5 h4 p.1 p.2).mpr (hinv.registered (h3 ▸ hopen) p hp)
  | close =>
    obtain ⟨eb2, h1, h2, h3, _, _, h6, _⟩ := Close_spec eb hinv.bus
    refine ⟨(eb2, subs), by simp [stepBus, h1], h2, ?_, ?_⟩
    · intro p hp
      show p.2 < eb2.chans.length
      rw [h6]
      exact hinv.inRange p hp
    · intro hopen
      have hopen2 : eb2.closed = false := hopen
      rw [h3] at hopen2
      cases hopen2
  | receive ch =>
    obtain ⟨h2, h3, h5, h4, h6⟩ := receive_spec eb ch hinv.bus
    refine ⟨(eb.receive ch, subs), rfl, h2, ?_, ?_⟩
    · intro p hp
      show p.2 < (eb.receive ch).chans.length
      rw [h6]
      exact hinv.inRange p hp
    · intro hopen p hp
      exact (SubscribedTo_congr eb _ h5 h4 p.1 p.2).mpr (hinv.registered (h3 ▸ hopen) p hp)

theorem runBusFrom_inv (ops : List BusOp) :
    ∀ st : EventBus × List (String × Nat), RunInv st →
      ∃ st2, runBusFrom ops st = some st2 ∧ RunInv st2 := by
  induction ops with
  | nil => exact fun st h => ⟨st, rfl, h⟩
  | cons op rest ih =>
    intro st h
    obtain ⟨st1, h1, h2⟩ := stepBus_inv st op h
    obtain ⟨st2, h3, h4⟩ := ih st1 h2
    exact ⟨st2, by simp [runBusFrom, h1, h3], h4⟩

/-- Every sequence of calls on a new bus returns, in a state that satisfies the
invariant of runs. -/
theorem runBus_inv (ops : List BusOp) : ∃ st, runBus ops = some st ∧ RunInv st :=
  runBusFrom_inv ops _ RunInv_New

theorem runBus_RunInv (ops : List BusOp) (st : EventBus × List (String × Nat))
    (h : runBus ops = some st) : RunInv st := by
  obtain ⟨st2, h1, h2⟩ := runBus_inv ops
  rw [h] at h1
  rw [Option.some.inj h1]
  exact h2

theorem mapLookup_sublist (m : List (String × List Nat)) (k : String) (l : List Nat)
    (h : mapLookup m k = some l) : List.Sublist l (m.map Prod.snd).flatten :=
  List.sublist_flatten_of_mem (List.mem_map.mpr ⟨(k, l), mapLookup_mem m k l h, rfl⟩)

/-- In a map whose channels are pairwise distinct, the lists stored under two
different keys have no channel in common. -/
theorem mapLookup_disjoint (m : List (String × List Nat)) (k1 k2 : String) (l1 l2 : List Nat)
    (hnd : (m.map Prod.snd).flatten.Nodup) (h1 : mapLookup m k1 = some l1)
    (h2 : mapLookup m k2 = some l2) (hne : k1 ≠ k2) : ∀ c, c ∈ l1 → c ∉ l2 := by
  induction m with
  | nil => simp [mapLookup] at h1
  | cons p rest ih =>
    obtain ⟨k, v⟩ := p
    simp only [List.map_cons, List.flatten_cons] at hnd
    obtain ⟨_, hnd2, hdis⟩ := List.nodup_append.mp hnd
    by_cases hk1 : k = k1
    · have hk2 : ¬ k = k2 := fun e => hne (hk1.symm.trans e)
      simp only [mapLookup, hk1, if_true, Option.some.injEq] at h1
      simp only [mapLookup, hk2, if_false] at h2
      subst h1
      intro c hc1 hc2
      exact hdis hc1 ((mapLookup_sublist rest k2 l2 h2).subset hc2)
    · simp only [mapLookup, hk1, if_false] at h1
      by_cases hk2 : k = k2
      · simp only [mapLookup, hk2, if_true, Option.some.injEq] at h2
        subst h2
        intro c hc1 hc2
        exact hdis hc2 ((mapLookup_sublist rest k1 l1 h1).subset hc1)
      · simp only [mapLookup, hk2, if_false] at h2
        exact ih hnd2 h1 h2

/-- A channel registered for the session `s` is a target of `Publish(event)`
exactly when `s` is empty or the session of the event. -/
theorem SubscribedTo_target (eb : EventBus) (event : Event) (s : String) (c : Nat)
    (hinv : BusInv eb) (hreg : SubscribedTo eb s c) :
    c ∈ publishTargets eb event ↔ (s = "" ∨ s = event.SessionID) := by
  have hnd := hinv.nodup
  unfold allSubs at hnd
  obtain ⟨_, hnd2, hdis⟩ := List.nodup_append.mp hnd
  unfold SubscribedTo at hreg
  unfold publishTargets
  by_cases hs : s = ""
  · simp only [hs, if_true] at hreg
    simp [hs, hreg]
  · simp only [hs, if_false] at hreg
    cases hm : eb.subscribers with
    | none => simp [hm] at hreg
    | some m =>
      simp only [hm, Option.some_bind] at hreg ⊢
      cases hl : mapLookup m s with
      | none => simp [hl] at hreg
      | some l =>
        simp only [hl, Option.getD_some] at hreg
        have hsess : c ∈ sessionSubs eb.subscribers := by
          rw [hm]
          exact (mapLookup_sublist m s l hl).subset hreg
        have hng : c ∉ eb.globalSubs := fun hg => hdis hg hsess
        by_cases hse : s = event.SessionID
        · subst hse
          simp [hl, hreg]
        · simp only [hs, hse, or_self, iff_false, List.mem_append, hng, false_or]
          cases hl2 : mapLookup m event.SessionID with
          | none => simp
          | some l2 =>
            simp only [Option.getD_some]
            rw [hm] at hnd2
            exact mapLookup_disjoint m s event.SessionID l l2 hnd2 hl hl2 hse c hreg

/-- `Publish` on a state reached by a run: what it does to the channel that a
`Subscribe(s)` of the run returned. -/
theorem Publish_on_subscription (ops : List BusOp) (eb : EventBus) (subs : List (String × Nat))
    (event : Event) (hrun : runBus ops = some (eb, subs)) (hopen : eb.closed = false) :
    ∃ eb2, eb.Publish event = some eb2 ∧ BusInv eb2 ∧
      ∀ s c, (s, c) ∈ subs → ∃ ch : Chan, eb.chans[c]? = some ch ∧ ch.cap = 100 ∧
        ch.buf.length ≤ 100 ∧
        eb2.chans[c]? = some (if s = "" ∨ s = event.SessionID then ch.push event else ch) := by
  have hinv := runBus_RunInv ops (eb, subs) hrun
  obtain ⟨eb2, h1, h2, _, _, _, _, _, h8⟩ := Publish_spec eb event hinv.bus
  refine ⟨eb2, h1, h2, ?_⟩
  intro s c hmem
  have hreg : SubscribedTo eb s c := hinv.registered hopen (s, c) hmem
  have hall : c ∈ allSubs eb := by
    unfold SubscribedTo at hreg
    unfold allSubs
    by_cases hs : s = ""
    · simp only [hs, if_true] at hreg
      exact List.mem_append_left _ hreg
    · simp only [hs, if_false] at hreg
      apply List.mem_append_right
      cases hm : eb.subscribers with
      | none => simp [hm] at hreg
      | some m =>
        simp only [hm, Option.some_bind] at hreg
        cases hl : mapLookup m s with
        | none => simp [hl] at hreg
        | some l =>
          simp only [hl, Option.getD_some] at hreg
          exact (mapLookup_sublist m s l hl).subset hreg
  obtain ⟨ch, hch, _, hcap⟩ := hinv.bus.live c hall
  have hb := (hinv.bus.bound c ch hch).1
  refine ⟨ch, hch, hcap, hcap ▸ hb, ?_⟩
  rw [h8 hopen c]
  have ht := SubscribedTo_target eb event s c hinv.bus hreg
  by_cases hst : s = "" ∨ s = event.SessionID
  · simp [ht.mpr hst, hst, hch]
  · have hnt : c ∉ publishTargets eb event := fun h => hst (ht.mp h)
    simp [hnt, hst, hch]

theorem runBusFrom_append (ops1 ops2 : List BusOp) (st : EventBus × List (String × Nat)) :
    runBusFrom (ops1 ++ ops2) st = (runBusFrom ops1 st).bind (runBusFrom ops2) := by
  induction ops1 generalizing st with
  | nil => rfl
  | cons op rest ih =>
    simp only [List.cons_append, runBusFrom]
    cases stepBus st op with
    | none => rfl
    | some st1 => simpa using ih st1

/-- A closed bus stays closed. -/
theorem stepBus_closed (st st2 : EventBus × List (String × Nat)) (op : BusOp) (hinv : RunInv st)
    (hc : st.1.closed = true) (h : stepBus st op = some st2) : st2.1.closed = true := by
  obtain ⟨eb, subs⟩ := st
  cases op with
  | subscribe s =>
    obtain ⟨eb2, h1, _, h3, _⟩ := Subscribe_spec eb s hinv.bus
    simp only [stepBus, h1, Option.map_some', Option.some.injEq] at h
    rw [← h]
    exact h3.trans hc
  | publish e =>
    obtain ⟨eb2, h1, _, h3, _⟩ := Publish_spec eb e hinv.bus
    simp only [stepBus, h1, Option.map_some', Option.some.injEq] at h
    rw [← h]
    exact h3.trans hc
  | close =>
    obtain ⟨eb2, h1, _, h3, _⟩ := Close_spec eb hinv.bus
    simp only [stepBus, h1, Option.map_some', Option.some.injEq] at h
    rw [← h]
    exact h3
  | receive ch =>
    simp only [stepBus, Option.some.injEq] at h
    rw [← h]
    exact (receive_spec eb ch hinv.bus).2.1.trans hc

theorem runBusFrom_closed (ops : List BusOp) :
    ∀ st st2 : EventBus × List (String × Nat), RunInv st → st.1.closed = true →
      runBusFrom ops st = some st2 → st2.1.closed = true := by
  induction ops with
  | nil =>
    intro st st2 _ hc h
    simp only [runBusFrom, Option.some.injEq] at h
    rw [← h]
    exact hc
  | cons op rest ih =>
    intro st st2 hinv hc h
    obtain ⟨st1, h1, h2⟩ := stepBus_inv st op hinv
    simp only [runBusFrom, h1, Option.some_bind] at h
    exact ih st1 st2 h2 (stepBus_closed st st1 op hinv hc h1) h

/-- The state reached by a run in which `Close` was called is closed. -/
theorem runBus_after_close (ops1 ops2 : List BusOp) (st : EventBus × List (String × Nat))
    (h : runBus (ops1 ++ BusOp.close :: ops2) = some st) : st.1.closed = true := by
  unfold runBus at h
  rw [runBusFrom_append] at h
  obtain ⟨st1, h1, hinv1⟩ := runBusFrom_inv ops1 _ RunInv_New
  rw [h1, Option.some_bind] at h
  obtain ⟨eb2, h2, hinv2, hc2, _⟩ := Close_spec st1.1 hinv1.bus
  have hstep : stepBus st1 BusOp.close = some (eb2, st1.2) := by simp [stepBus, h2]
  obtain ⟨st2, h3, hinv3⟩ := stepBus_inv st1 BusOp.close hinv1
  rw [hstep] at h3
  simp only [runBusFrom, hstep, Option.some_bind] at h
  rw [← Option.some.inj h3] at hinv3
  exact runBusFrom_closed ops2 (eb2, st1.2) st hinv3 hc2 h

/-! ## C1 -/

/-- C1: on every open bus reached by a sequence of calls from `NewEventBus`,
`Publish(e)` returns and, for every channel `c` returned by a `Subscribe(s)` of
the sequence: when `s` is empty (a global subscription) or `s` is the session of `e`, and the
queue of `c` is not full, `e` is appended to the queue of `c`; when `s` is not
empty and is not the session of `e`, the channel `c` is left as it was. -/
theorem Publish_delivers (ops : List BusOp) (eb : EventBus) (subs : List (String × Nat))
    (e : Event) (hrun : runBus ops = some (eb, subs)) (hopen : eb.closed = false) :
    ∃ eb2, eb.Publish e = some eb2 ∧
      ∀ s c, (s, c) ∈ subs → ∃ ch ch2 : Chan,
        eb.chans[c]? = some ch ∧ eb2.chans[c]? = some ch2 ∧
        ((s = "" ∨ s = e.SessionID) → ch.buf.length < ch.cap →
          ch2 = { ch with buf := ch.buf ++ [e] }) ∧
        ((s ≠ "" ∧ s ≠ e.SessionID) → ch2 = ch) := by
  obtain ⟨eb2, h1, _, h3⟩ := Publish_on_subscription ops eb subs e hrun hopen
  refine ⟨eb2, h1, ?_⟩
  intro s c hmem
  obtain ⟨ch, hch, _, _, h4⟩ := h3 s c hmem
  refine ⟨ch, _, hch, h4, ?_, ?_⟩
  · intro hs hroom
    simp [hs, Chan.push, hroom]
  · intro hs
    have hns : ¬ (s = "" ∨ s = e.SessionID) := fun h => h.elim hs.1 hs.2
    simp [hns]

/-- C1, at the calls of `TestEventBus`: after `Subscribe("session1")`,
`Subscribe("")` and `Subscribe("s2")`, publishing an event of "session1" queues
it for the first two subscribers and not for the third. -/
theorem Publish_delivers_witness :
    runBus testSubscribes = some (testBus, [("session1", 0), ("", 1), ("s2", 2)]) ∧
    testBus.Publish testEvent = some { testBus with
      chans := [{ cap := 100, buf := [testEvent], closed := false },
        { cap := 100, buf := [testEvent], closed := false },
        { cap := 100, buf := [], closed := false }] } ∧
    ∃ eb2, testBus.Publish testEvent = some eb2 ∧
      ∀ s c, (s, c) ∈ [("session1", 0), ("", 1), ("s2", 2)] → ∃ ch ch2 : Chan,
        testBus.chans[c]? = some ch ∧ eb2.chans[c]? = some ch2 ∧
        ((s = "" ∨ s = testEvent.SessionID) → ch.buf.length < ch.cap →
          ch2 = { ch with buf := ch.buf ++ [testEvent] }) ∧
        ((s ≠ "" ∧ s ≠ testEvent.SessionID) → ch2 = ch) :=
  ⟨by decide, by decide,
    Publish_delivers testSubscribes testBus _ testEvent (by decide) rfl⟩

/-! ## C2 -/

/-- C2: in every state reached by a sequence of calls in which `Close` was
called (any calls before it, any calls after it), the bus is closed and has
released its subscriber lists; every channel that a `Subscribe` of the sequence
returned is closed; `Publish` returns the bus as it is; `Subscribe` returns a new
channel that is closed, and registers nothing; `Close` returns the bus as it is. -/
theorem Close_closes_subscriptions (ops1 ops2 : List BusOp) (eb : EventBus)
    (subs : List (String × Nat)) (hrun : runBus (ops1 ++ BusOp.close :: ops2) = some (eb, subs)) :
    eb.closed = true ∧ eb.globalSubs = [] ∧ eb.subscribers = none ∧
    (∀ s c, (s, c) ∈ subs → ∃ ch : Chan, eb.chans[c]? = some ch ∧ ch.closed = true) ∧
    (∀ e, eb.Publish e = some eb) ∧
    (∀ s, ∃ ch : Chan, ch.closed = true ∧
      eb.Subscribe s = some (eb.chans.length, { eb with chans := eb.chans ++ [ch] })) ∧
    eb.Close = some eb := by
  have hc : eb.closed = true := runBus_after_close ops1 ops2 (eb, subs) hrun
  have hinv := runBus_RunInv _ (eb, subs) hrun
  obtain ⟨hg, hs⟩ : eb.globalSubs = [] ∧ eb.subscribers = none := hinv.bus.released hc
  refine ⟨hc, hg, hs, ?_, ?_, ?_, ?_⟩
  · intro s c hmem
    have hlt : c < eb.chans.length := hinv.inRange (s, c) hmem
    refine ⟨eb.chans[c], List.getElem?_eq_getElem hlt, ?_⟩
    rcases hinv.bus.owned c _ (List.getElem?_eq_getElem hlt) with h1 | h1
    · simp [allSubs, sessionSubs, hg, hs] at h1
    · exact h1
  · intro e
    simp [EventBus.Publish, hc]
  · intro s
    exact ⟨{ cap := 0, buf := [], closed := true }, rfl, by simp [EventBus.Subscribe, hc]⟩
  · simp [EventBus.Close, hc]

/-- C2, at the calls of `TestEventBus`: two subscriptions, a publication and
`Close`. -/
theorem Close_closes_subscriptions_witness :
    runBus testCloseOps = some (testClosedBus, [("session1", 0), ("", 1)]) ∧
    (testClosedBus.closed = true ∧ testClosedBus.globalSubs = [] ∧
      testClosedBus.subscribers = none ∧
      (∀ s c, (s, c) ∈ [("session1", 0), ("", 1)] →
        ∃ ch : Chan, testClosedBus.chans[c]? = some ch ∧ ch.closed = true) ∧
      (∀ e, testClosedBus.Publish e = some testClosedBus) ∧
      (∀ s, ∃ ch : Chan, ch.closed = true ∧
        testClosedBus.Subscribe s = some (testClosedBus.chans.length,
          { testClosedBus with chans := testClosedBus.chans ++ [ch] })) ∧
      testClosedBus.Close = some testClosedBus) :=
  ⟨by decide,
    Close_closes_subscriptions [.subscribe "session1", .subscribe "", .publish testEvent] []
      testClosedBus _ (by decide)⟩

/-! ## C3 -/

/-- C3: in every state reached by a sequence of calls from `NewEventBus`, no
queue holds more than 100 events; `Publish(e)` returns, and no queue holds more
than 100 events afterwards; on an open bus, for every channel returned by a
`Subscribe(s)` of the sequence with `s` empty or the session of `e`: when the queue
holds fewer than 100 events `e` is appended to it, and when it holds 100 events
the channel is left as it was, whatever the state of the other queues. -/
theorem Publish_never_blocks (ops : List BusOp) (eb : EventBus) (subs : List (String × Nat))
    (e : Event) (hrun : runBus ops = some (eb, subs)) :
    (∀ (c : Nat) (ch : Chan), eb.chans[c]? = some ch → ch.buf.length ≤ 100) ∧
    ∃ eb2, eb.Publish e = some eb2 ∧
      (∀ (c : Nat) (ch : Chan), eb2.chans[c]? = some ch → ch.buf.length ≤ 100) ∧
      (eb.closed = false → ∀ s c, (s, c) ∈ subs → (s = "" ∨ s = e.SessionID) →
        ∃ ch ch2 : Chan, eb.chans[c]? = some ch ∧ eb2.chans[c]? = some ch2 ∧
          (ch.buf.length < 100 → ch2 = { ch with buf := ch.buf ++ [e] }) ∧
          (ch.buf.length = 100 → ch2 = ch)) := by
  have hinv := runBus_RunInv ops (eb, subs) hrun
  have hbound : ∀ (b : EventBus), BusInv b →
      ∀ (c : Nat) (ch : Chan), b.chans[c]? = some ch → ch.buf.length ≤ 100 := by
    intro b hb c ch h
    obtain ⟨h1, h2⟩ := hb.bound c ch h
    exact le_trans h1 h2
  refine ⟨hbound eb hinv.bus, ?_⟩
  obtain ⟨eb2, h1, h2, _⟩ := Publish_spec eb e hinv.bus
  refine ⟨eb2, h1, hbound eb2 h2, ?_⟩
  intro hopen s c hmem hs
  obtain ⟨eb3, h3, _, h4⟩ := Publish_on_subscription ops eb subs e hrun hopen
  rw [h1] at h3
  rw [← Option.some.inj h3] at h4
  obtain ⟨ch, hch, hcap, _, h5⟩ := h4 s c hmem
  refine ⟨ch, _, hch, h5, ?_, ?_⟩
  · intro hroom
    simp [hs, Chan.push, hcap, hroom]
  · intro hfull
    simp [hs, Chan.push, hcap, hfull]

/-- C3, with a full queue: after 100 publications that the subscriber of
"session1" did not receive, one more publication leaves its queue as it was and
is queued for the global subscriber, who received once. -/
theorem Publish_never_blocks_witness :
    runBus fullQueueOps = some (fullQueueBus, [("session1", 0), ("", 1)]) ∧
    fullQueueBus.Publish testEvent = some { fullQueueBus with
      chans := [{ cap := 100, buf := List.replicate 100 testEvent, closed := false },
        { cap := 100, buf := List.replicate 100 testEvent, closed := false }] } ∧
    ((∀ (c : Nat) (ch : Chan), fullQueueBus.chans[c]? = some ch → ch.buf.length ≤ 100) ∧
    ∃ eb2, fullQueueBus.Publish testEvent = some eb2 ∧
      (∀ (c : Nat) (ch : Chan), eb2.chans[c]? = some ch → ch.buf.length ≤ 100) ∧
      (fullQueueBus.closed = false → ∀ s c, (s, c) ∈ [("session1", 0), ("", 1)] →
        (s = "" ∨ s = testEvent.SessionID) →
        ∃ ch ch2 : Chan, fullQueueBus.chans[c]? = some ch ∧ eb2.chans[c]? = some ch2 ∧
          (ch.buf.length < 100 → ch2 = { ch with buf := ch.buf ++ [testEvent] }) ∧
          (ch.buf.length = 100 → ch2 = ch))) :=
  ⟨by decide, by decide,
    Publish_never_blocks fullQueueOps fullQueueBus _ testEvent (by decide)⟩

/-! ## C4 -/

/-- C4: on every engine that is not started, and for every argument and every
behaviour of the collaborators, `StartSession`, `Pause`, `Resume`, `Kill` and
`Events` return the NotStarted error and leave the whole engine (registry,
subscriber lists, started flag, the record of the manager's publications and
calls) as it was. -/
theorem not_started_operations_fail (e : Engine) (x : Ext) (opts : SessionOpts)
    (sessionID : String) (h : e.started = false) :
    e.StartSession x opts = some (e, .error .notStarted) ∧
    e.Pause x sessionID = some (e, some .notStarted) ∧
    e.Resume x sessionID = some (e, some .notStarted) ∧
    e.Kill x sessionID = some (e, some .notStarted) ∧
    e.Events sessionID = some (e, .error .notStarted) := by
  simp [Engine.StartSession, Engine.Pause, Engine.Resume, Engine.Kill, Engine.Events, h]

/-- C4, at the calls of `TestEngineErrorHandling`: the engine made by `New` is
not started, and `StartSession({Title: "test"})`, `Pause("test")`,
`Resume("test")`, `Kill("test")` fail on it; so does `Events("")`. -/
theorem not_started_operations_fail_witness :
    New testExt (some testCfg) (some testState) = .ok freshEngine ∧
    freshEngine.started = false ∧
    (freshEngine.StartSession testExt
        { Title := "test", Path := "", Program := "", AutoYes := false, Prompt := "" }
      = some (freshEngine, .error .notStarted) ∧
    freshEngine.Pause testExt "test" = some (freshEngine, some .notStarted) ∧
    freshEngine.Resume testExt "test" = some (freshEngine, some .notStarted) ∧
    freshEngine.Kill testExt "test" = some (freshEngine, some .notStarted) ∧
    freshEngine.Events "test" = some (freshEngine, .error .notStarted)) ∧
    freshEngine.Events "" = some (freshEngine, .error .notStarted) :=
  ⟨rfl, rfl, not_started_operations_fail freshEngine testExt _ "test" rfl, rfl⟩

/-! ## C5 -/

theorem mapInsert_of_absent {β : Type} (k : String) (v : β) (m : List (String × β))
    (h : k ∉ m.map Prod.fst) : mapInsert k v m = m ++ [(k, v)] := by
  induction m with
  | nil => rfl
  | cons p rest ih =>
    obtain ⟨k1, v1⟩ := p
    simp only [List.map_cons, List.mem_cons, not_or] at h
    have h1 : ¬ k1 = k := fun e => h.1 e.symm
    simp [mapInsert, h1, ih h.2]

theorem mapInsert_keys_of_present {β : Type} (k : String) (v : β) (m : List (String × β))
    (h : k ∈ m.map Prod.fst) : (mapInsert k v m).map Prod.fst = m.map Prod.fst := by
  induction m with
  | nil => simp at h
  | cons p rest ih =>
    obtain ⟨k1, v1⟩ := p
    by_cases h1 : k1 = k
    · simp [mapInsert, h1]
    · simp only [List.map_cons, List.mem_cons] at h
      have h2 : k ∈ rest.map Prod.fst := h.resolve_left fun e => h1 e.symm
      simp [mapInsert, h1, ih h2]

theorem mapInsert_keys_nodup {β : Type} (k : String) (v : β) (m : List (String × β))
    (h : (m.map Prod.fst).Nodup) : ((mapInsert k v m).map Prod.fst).Nodup := by
  by_cases hk : k ∈ m.map Prod.fst
  · rw [mapInsert_keys_of_present k v m hk]
    exact h
  · rw [mapInsert_of_absent k v m hk, List.map_append]
    apply List.Nodup.append h (by simp)
    intro a ha hb
    simp only [List.map_cons, List.map_nil, List.mem_singleton] at hb
    exact hk (hb ▸ ha)

theorem mem_mapInsert {β : Type} (k : String) (v : β) (m : List (String × β))
    (p : String × β) (h : p ∈ mapInsert k v m) : p = (k, v) ∨ p ∈ m := by
  induction m with
  | nil =>
    simp only [mapInsert, List.mem_singleton] at h
    exact Or.inl h
  | cons q rest ih =>
    obtain ⟨k1, v1⟩ := q
    by_cases h1 : k1 = k
    · simp only [mapInsert, h1, if_true, List.mem_cons] at h
      rcases h with h | h
      · exact Or.inl h
      · exact Or.inr (List.mem_cons_of_mem _ h)
    · simp only [mapInsert, h1, if_false, List.mem_cons] at h
      rcases h with h | h
      · exact Or.inr (by simp [h])
      · rcases ih h with h2 | h2
        · exact Or.inl h2
        · exact Or.inr (List.mem_cons_of_mem _ h2)

theorem mapDelete_sublist {β : Type} (k : String) (m : List (String × β)) :
    List.Sublist (mapDelete k m) m := by
  induction m with
  | nil => exact List.Sublist.refl _
  | cons p rest ih =>
    obtain ⟨k1, v1⟩ := p
    by_cases h1 : k1 = k
    · simp only [mapDelete, h1, if_true]
      exact List.sublist_cons_self _ _
    · simp only [mapDelete, h1, if_false]
      exact ih.cons₂ _

theorem publish_spec (m : manager) (event : Event) (hinv : BusInv m.eventBus) :
    ∃ eb2, m.eventBus.Publish event = some eb2 ∧ BusInv eb2 ∧
      m.publish event = some { m with eventBus := eb2, published := m.published ++ [event] } := by
  obtain ⟨eb2, h1, h2, _⟩ := Publish_spec m.eventBus event hinv
  exact ⟨eb2, h1, h2, by simp [manager.publish, h1]⟩

/-- When a session of the registry has the title of the options, `Create`
returns the DuplicateTitle error and the manager as it was. -/
theorem Create_of_duplicate (m : manager) (x : Ext) (opts : SessionOpts)
    (h : ∃ kw ∈ m.sessions, kw.2.inst.Title = opts.Title) :
    m.Create x opts = some (m, .error (.titleExists opts.Title)) := by
  have hany : (m.sessions.any fun kw => decide (kw.2.inst.Title = opts.Title)) = true := by
    rw [List.any_eq_true]
    obtain ⟨kw, h1, h2⟩ := h
    exact ⟨kw, h1, by simp [h2]⟩
  unfold manager.Create
  rw [if_pos hany]

/-! ## C7 -/

/-- C7: for every manager, every behaviour of the collaborators and every
options whose title is the title of a session of the registry, `Create` returns
the DuplicateTitle error and leaves the whole manager as it was: the registry,
the bus and its queues, the watchers and the wait group, and the record of the
manager's publications and of its calls on session handles (no handle is
constructed, no event is published, no watcher is started). -/
theorem Create_duplicate_title (m : manager) (x : Ext) (opts : SessionOpts)
    (h : ∃ kw ∈ m.sessions, kw.2.inst.Title = opts.Title) :
    m.Create x opts = some (m, .error (.titleExists opts.Title)) ∧
    ∀ m2 r, m.Create x opts = some (m2, r) →
      m2.sessions = m.sessions ∧ m2.eventBus = m.eventBus ∧ m2.published = m.published ∧
      m2.calls = m.calls ∧ m2.wg = m.wg := by
  have hc := Create_of_duplicate m x opts h
  refine ⟨hc, ?_⟩
  intro m2 r h2
  rw [hc] at h2
  simp only [Option.some.injEq, Prod.mk.injEq] at h2
  rw [← h2.1]
  exact ⟨rfl, rfl, rfl, rfl, rfl⟩

/-- C7, the scenario `Create({title: "a"})` then `Create({title: "a"})`: the
first call succeeds and the second fails, leaving the manager as the first call
left it. -/
theorem Create_duplicate_title_witness :
    testManager.Create testExt optsA = some (managerA, .ok "a") ∧
    (∃ kw ∈ managerA.sessions, kw.2.inst.Title = optsA.Title) ∧
    managerA.Create testExt optsA = some (managerA, .error (.titleExists "a")) ∧
    ∀ m2 r, managerA.Create testExt optsA = some (m2, r) →
      m2.sessions = managerA.sessions ∧ m2.eventBus = managerA.eventBus ∧
      m2.published = managerA.published ∧ m2.calls = managerA.calls ∧ m2.wg = managerA.wg :=
  ⟨by rfl, ⟨_, List.mem_cons_self _ _, rfl⟩,
    Create_duplicate_title managerA testExt optsA ⟨_, List.mem_cons_self _ _, rfl⟩⟩

/-- `Create` with a title that no session of the registry has, when the
collaborator constructs and starts the handle: the wrapper is registered, its
watcher started and the `state` event published. -/
theorem Create_eq (m : manager) (x : Ext) (opts : SessionOpts)
    (hnew : ∀ kw ∈ m.sessions, kw.2.inst.Title ≠ opts.Title) (inst0 inst2 : Instance)
    (h0 : x.NewInstance
      { Title := opts.Title, Path := opts.Path, Program := opts.Program, AutoYes := opts.AutoYes }
      = .ok inst0)
    (h2 : x.Start { inst0 with AutoYes := opts.AutoYes } true = (inst2, none)) :
    m.Create x opts =
      (({ m with
          sessions := mapInsert (generateSessionID opts.Title)
            (m.spawnWatcher
              { inst := if opts.Prompt ≠ "" then (x.SendPrompt inst2 opts.Prompt).1 else inst2
                id := generateSessionID opts.Title, lastStdout := "", lastDiff := none
                stopCh := false, watchers := 0 }).2 m.sessions
          wg := (m.spawnWatcher
              { inst := if opts.Prompt ≠ "" then (x.SendPrompt inst2 opts.Prompt).1 else inst2
                id := generateSessionID opts.Title, lastStdout := "", lastDiff := none
                stopCh := false, watchers := 0 }).1
          calls := m.calls ++ [.NewInstance
              { Title := opts.Title, Path := opts.Path, Program := opts.Program,
                AutoYes := opts.AutoYes }] ++
            [.Start { inst0 with AutoYes := opts.AutoYes }] ++
            (if opts.Prompt ≠ "" then [.SendPrompt inst2 opts.Prompt] else []) } : manager).publish
        (createEvent (x.now 0) (generateSessionID opts.Title) EventState
          (.state { Previous := StatusLoading
                    Current := convertStatus
                      (if opts.Prompt ≠ "" then (x.SendPrompt inst2 opts.Prompt).1 else inst2).Status
                      }))).map
        fun m5 => (m5, .ok (generateSessionID opts.Title)) := by
  have hany : (m.sessions.any fun kw => decide (kw.2.inst.Title = opts.Title)) = false := by
    rw [List.any_eq_false]
    intro kw hkw
    simpa using hnew kw hkw
  unfold manager.Create
  simp only [hany, Bool.false_eq_true, if_false, h0, h2]
  rfl

theorem spawnWatcher_id (m : manager) (w : sessionWrapper) : (m.spawnWatcher w).2.id = w.id := by
  unfold manager.spawnWatcher
  by_cases h : (m.stopCh || w.stopCh) = true <;> simp [h]

theorem spawnWatcher_inst (m : manager) (w : sessionWrapper) :
    (m.spawnWatcher w).2.inst = w.inst := by
  unfold manager.spawnWatcher
  by_cases h : (m.stopCh || w.stopCh) = true <;> simp [h]

theorem spawnWatcher_stopCh (m : manager) (w : sessionWrapper) :
    (m.spawnWatcher w).2.stopCh = w.stopCh := by
  unfold manager.spawnWatcher
  by_cases h : (m.stopCh || w.stopCh) = true <;> simp [h]

/-- `Create` with a title that no session of the registry has, when the
collaborator constructs and starts the handle: the call returns the id made
from the title, registers one wrapper under that id and publishes one event. -/
theorem Create_fresh (m : manager) (x : Ext) (opts : SessionOpts) (hbus : BusInv m.eventBus)
    (hnew : ∀ kw ∈ m.sessions, kw.2.inst.Title ≠ opts.Title) (inst0 inst2 : Instance)
    (h0 : x.NewInstance
      { Title := opts.Title, Path := opts.Path, Program := opts.Program, AutoYes := opts.AutoYes }
      = .ok inst0)
    (h2 : x.Start { inst0 with AutoYes := opts.AutoYes } true = (inst2, none)) :
    ∃ (m2 : manager) (w : sessionWrapper),
      m.Create x opts = some (m2, .ok (generateSessionID opts.Title)) ∧
      m2.sessions = mapInsert (generateSessionID opts.Title) w m.sessions ∧
      w.id = generateSessionID opts.Title ∧
      w.inst = (if opts.Prompt ≠ "" then (x.SendPrompt inst2 opts.Prompt).1 else inst2) ∧
      BusInv m2.eventBus ∧
      m2.published = m.published ++ [createEvent (x.now 0) (generateSessionID opts.Title) EventState
        (.state { Previous := StatusLoading, Current := convertStatus w.inst.Status })] := by
  rw [Create_eq m x opts hnew inst0 inst2 h0 h2]
  obtain ⟨eb2, h1, hb2, _⟩ := Publish_spec m.eventBus
    (createEvent (x.now 0) (generateSessionID opts.Title) EventState
      (.state { Previous := StatusLoading
                Current := convertStatus
                  (if opts.Prompt ≠ "" then (x.SendPrompt inst2 opts.Prompt).1 else inst2).Status }))
    hbus
  simp only [manager.publish, h1, Option.map_some']
  refine ⟨_, _, rfl, rfl, ?_, ?_, hb2, ?_⟩
  · rw [spawnWatcher_id]
  · rw [spawnWatcher_inst]
  · rw [spawnWatcher_inst]

theorem List_ids (m : manager) (x : Ext) :
    (m.List x).map (fun info => info.ID) = m.sessions.map fun kw => kw.2.id := by
  simp [manager.List, manager.wrapperToSessionInfo, List.map_map, Function.comp_def]

/-- A sequence of calls of `Create` with pairwise distinct titles that no session
of the registry has, on a registry whose sessions are stored under their title:
every call returns the id made from its title, and the registry afterwards is
the registry before followed by one session for each call. -/
theorem createAll_fresh (calls : List (Ext × SessionOpts)) :
    ∀ m : manager, BusInv m.eventBus →
      (∀ kw ∈ m.sessions, kw.2.inst.Title = kw.1 ∧ kw.2.id = kw.1) →
      (calls.map fun p => p.2.Title).Nodup →
      (∀ p ∈ calls, p.2.Title ∉ m.sessions.map Prod.fst) →
      (∀ p ∈ calls, CreateSucceeds p.1 p.2) →
      ∃ m2, createAll m calls =
          some (m2, calls.map fun p => Except.ok (generateSessionID p.2.Title)) ∧
        (m2.sessions.map fun kw => kw.2.id) =
          (m.sessions.map fun kw => kw.2.id) ++ calls.map fun p => generateSessionID p.2.Title := by
  induction calls with
  | nil =>
    intro m _ _ _ _ _
    exact ⟨m, rfl, by simp⟩
  | cons p rest ih =>
    obtain ⟨x, opts⟩ := p
    intro m hbus hreg hnd hfresh hext
    simp only [List.map_cons, List.nodup_cons] at hnd
    have hkey : opts.Title ∉ m.sessions.map Prod.fst := hfresh (x, opts) (List.mem_cons_self _ _)
    have hnew : ∀ kw ∈ m.sessions, kw.2.inst.Title ≠ opts.Title := by
      intro kw hkw e
      apply hkey
      rw [← e, (hreg kw hkw).1]
      exact List.mem_map_of_mem _ hkw
    obtain ⟨inst0, inst2, h0, h2, ht, hp⟩ := hext (x, opts) (List.mem_cons_self _ _)
    obtain ⟨m1, w, hc, hs, hid, hinst, hbus1, _⟩ := Create_fresh m x opts hbus hnew inst0 inst2 h0 h2
    have hs1 : m1.sessions = m.sessions ++ [(opts.Title, w)] := by
      rw [hs]
      exact mapInsert_of_absent _ w m.sessions hkey
    have hwt : w.inst.Title = opts.Title := by
      rw [hinst]
      by_cases hprompt : opts.Prompt ≠ ""
      · rw [if_pos hprompt]
        exact hp hprompt
      · rw [if_neg hprompt]
        exact ht
    have hreg1 : ∀ kw ∈ m1.sessions, kw.2.inst.Title = kw.1 ∧ kw.2.id = kw.1 := by
      intro kw hkw
      rw [hs1] at hkw
      rcases List.mem_append.mp hkw with h | h
      · exact hreg kw h
      · rw [List.mem_singleton.mp h]
        exact ⟨hwt, hid⟩
    have hfresh1 : ∀ q ∈ rest, q.2.Title ∉ m1.sessions.map Prod.fst := by
      intro q hq hmem
      rw [hs1, List.map_append, List.mem_append] at hmem
      rcases hmem with h | h
      · exact hfresh q (List.mem_cons_of_mem _ hq) h
      · simp only [List.map_cons, List.map_nil, List.mem_singleton] at h
        exact hnd.1 (List.mem_map.mpr ⟨q, hq, h⟩)
    obtain ⟨m2, hrun, hids⟩ := ih m1 hbus1 hreg1 hnd.2 hfresh1
      (fun q hq => hext q (List.mem_cons_of_mem _ hq))
    refine ⟨m2, ?_, ?_⟩
    · simp [createAll, hc, hrun]
    · rw [hids, hs1]
      simp [hid, generateSessionID]

/-- C9: starting from a manager with an empty registry, for every sequence of
calls of `Create` with pairwise distinct titles, each answered by collaborators
that construct and start a handle carrying the title: every call returns the id
`generateSessionID(title)`, a function of the title that takes different values
on different titles; and `List()` afterwards has exactly one entry for each
call, with that id, and no other entry. -/
theorem Create_distinct_titles (m0 : manager) (calls : List (Ext × SessionOpts))
    (hempty : m0.sessions = []) (hbus : BusInv m0.eventBus)
    (hdistinct : (calls.map fun p => p.2.Title).Nodup)
    (hext : ∀ p ∈ calls, CreateSucceeds p.1 p.2) :
    Function.Injective generateSessionID ∧
    ∃ m, createAll m0 calls =
        some (m, calls.map fun p => Except.ok (generateSessionID p.2.Title)) ∧
      ∀ x, List.Perm ((m.List x).map fun info => info.ID)
        (calls.map fun p => generateSessionID p.2.Title) := by
  refine ⟨fun a b h => h, ?_⟩
  obtain ⟨m, h1, h2⟩ := createAll_fresh calls m0 hbus (by simp [hempty]) hdistinct
    (by simp [hempty]) hext
  refine ⟨m, h1, fun x => ?_⟩
  rw [List_ids, h2, hempty]
  simp

/-- C9, at the calls `Create({title: "a"})`, `Create({title: "b", prompt: "go"})`
on a new manager. -/
theorem Create_distinct_titles_witness :
    Function.Injective generateSessionID ∧
    ∃ m, createAll testManager [(testExt, optsA), (testExt, optsB)] =
        some (m, [Except.ok "a", Except.ok "b"]) ∧
      ∀ x, List.Perm ((m.List x).map fun info => info.ID) ["a", "b"] :=
  Create_distinct_titles testManager [(testExt, optsA), (testExt, optsB)] rfl BusInv_New
    (by decide)
    (by
      intro p hp
      simp only [List.mem_cons, List.mem_singleton, List.not_mem_nil, or_false] at hp
      rcases hp with hp | hp
      · subst hp
        exact ⟨_, _, rfl, rfl, rfl, fun _ => rfl⟩
      · subst hp
        exact ⟨_, _, rfl, rfl, rfl, fun _ => rfl⟩)

/-! ## C10 -/

theorem RegInv_nil : RegInv [] := ⟨by simp, by simp⟩

theorem RegInv_mapInsert (k : String) (w : sessionWrapper) (m : List (String × sessionWrapper))
    (h : RegInv m) (hid : w.id = k) : RegInv (mapInsert k w m) := by
  refine ⟨mapInsert_keys_nodup k w m h.1, ?_⟩
  intro kw hkw
  rcases mem_mapInsert k w m kw hkw with h1 | h1
  · rw [h1]
    exact hid
  · exact h.2 kw h1

theorem RegInv_mapDelete (k : String) (m : List (String × sessionWrapper)) (h : RegInv m) :
    RegInv (mapDelete k m) :=
  ⟨h.1.sublist ((mapDelete_sublist k m).map Prod.fst),
    fun kw hkw => h.2 kw ((mapDelete_sublist k m).subset hkw)⟩

theorem RegInv_lookup (k : String) (w : sessionWrapper) (m : List (String × sessionWrapper))
    (h : RegInv m) (hw : mapLookup m k = some w) : w.id = k :=
  h.2 (k, w) (mapLookup_mem m k w hw)

theorem publish_inv (m m2 : manager) (event : Event) (h : m.publish event = some m2)
    (hbus : BusInv m.eventBus) :
    BusInv m2.eventBus ∧ m2.sessions = m.sessions := by
  obtain ⟨eb2, _, h2, h3⟩ := publish_spec m event hbus
  rw [h3] at h
  rw [← Option.some.inj h]
  exact ⟨h2, rfl⟩

/-- `Create` keeps the invariants of the registry and of the bus. -/
theorem Create_inv (m m2 : manager) (x : Ext) (opts : SessionOpts) (r : Except Error String)
    (hreg : RegInv m.sessions) (hbus : BusInv m.eventBus)
    (h : m.Create x opts = some (m2, r)) : RegInv m2.sessions ∧ BusInv m2.eventBus := by
  by_cases hdup : ∃ kw ∈ m.sessions, kw.2.inst.Title = opts.Title
  · rw [Create_of_duplicate m x opts hdup] at h
    simp only [Option.some.injEq, Prod.mk.injEq] at h
    rw [← h.1]
    exact ⟨hreg, hbus⟩
  · have hnew : ∀ kw ∈ m.sessions, kw.2.inst.Title ≠ opts.Title := by
      intro kw hkw e
      exact hdup ⟨kw, hkw, e⟩
    have hany : (m.sessions.any fun kw => decide (kw.2.inst.Title = opts.Title)) = false := by
      rw [List.any_eq_false]
      intro kw hkw
      simpa using hnew kw hkw
    cases h0 : x.NewInstance
        { Title := opts.Title, Path := opts.Path, Program := opts.Program,
          AutoYes := opts.AutoYes } with
    | error err =>
      unfold manager.Create at h
      simp only [hany, Bool.false_eq_true, if_false, h0, Option.some.injEq, Prod.mk.injEq] at h
      rw [← h.1]
      exact ⟨hreg, hbus⟩
    | ok inst0 =>
      rcases h2 : x.Start { inst0 with AutoYes := opts.AutoYes } true with ⟨inst2, _ | err⟩
      · rw [Create_eq m x opts hnew inst0 inst2 h0 h2] at h
        simp only [Option.map_eq_some', Prod.mk.injEq] at h
        obtain ⟨m5, h5, h6, _⟩ := h
        subst h6
        obtain ⟨hb, hs⟩ := publish_inv _ m5 _ h5 hbus
        refine ⟨?_, hb⟩
        rw [hs]
        exact RegInv_mapInsert _ _ _ hreg (spawnWatcher_id _ _)
      · unfold manager.Create at h
        simp only [hany, Bool.false_eq_true, if_false, h0, h2, Option.some.injEq,
          Prod.mk.injEq] at h
        rw [← h.1]
        exact ⟨hreg, hbus⟩

/-- `Kill` keeps the invariants of the registry and of the bus. -/
theorem Kill_inv (m m2 : manager) (x : Ext) (sessionID : String) (r : Option Error)
    (hreg : RegInv m.sessions) (hbus : BusInv m.eventBus)
    (h : m.Kill x sessionID = some (m2, r)) : RegInv m2.sessions ∧ BusInv m2.eventBus := by
  unfold manager.Kill at h
  split at h
  · simp only [Option.some.injEq, Prod.mk.injEq] at h
    rw [← h.1]
    exact ⟨hreg, hbus⟩
  · rename_i w hw
    split at h
    · simp at h
    · cases hk : (x.Kill w.inst).2 with
      | some err =>
        simp only [hk, Option.some.injEq, Prod.mk.injEq] at h
        rw [← h.1]
        exact ⟨RegInv_mapInsert _ _ _ hreg (RegInv_lookup sessionID w _ hreg hw), hbus⟩
      | none =>
        simp only [hk, Option.map_eq_some', Prod.mk.injEq] at h
        obtain ⟨m3, h3, h4, _⟩ := h
        subst h4
        obtain ⟨hb, hs⟩ := publish_inv _ m3 _ h3 hbus
        refine ⟨?_, hb⟩
        rw [hs]
        exact RegInv_mapDelete _ _ hreg

/-- `Pause` keeps the invariants of the registry and of the bus. -/
theorem Pause_inv (m m2 : manager) (x : Ext) (sessionID : String) (r : Option Error)
    (hreg : RegInv m.sessions) (hbus : BusInv m.eventBus)
    (h : m.Pause x sessionID = some (m2, r)) : RegInv m2.sessions ∧ BusInv m2.eventBus := by
  unfold manager.Pause manager.Get at h
  cases hw : mapLookup m.sessions sessionID with
  | none =>
    simp only [hw, Option.some.injEq, Prod.mk.injEq] at h
    rw [← h.1]
    exact ⟨hreg, hbus⟩
  | some w =>
    have hid : ({ w with inst := (x.Pause w.inst).1 } : sessionWrapper).id = sessionID :=
      RegInv_lookup sessionID w _ hreg hw
    cases hk : (x.Pause w.inst).2 with
    | some err =>
      simp only [hw, hk, Option.some.injEq, Prod.mk.injEq] at h
      rw [← h.1]
      exact ⟨RegInv_mapInsert _ _ _ hreg hid, hbus⟩
    | none =>
      simp only [hw, hk, Option.map_eq_some', Prod.mk.injEq] at h
      obtain ⟨m3, h3, h4, _⟩ := h
      subst h4
      obtain ⟨hb, hs⟩ := publish_inv _ m3 _ h3 hbus
      refine ⟨?_, hb⟩
      rw [hs]
      exact RegInv_mapInsert _ _ _ hreg hid

/-- `Resume` keeps the invariants of the registry and of the bus. -/
theorem Resume_inv (m m2 : manager) (x : Ext) (sessionID : String) (r : Option Error)
    (hreg : RegInv m.sessions) (hbus : BusInv m.eventBus)
    (h : m.Resume x sessionID = some (m2, r)) : RegInv m2.sessions ∧ BusInv m2.eventBus := by
  unfold manager.Resume manager.Get at h
  cases hw : mapLookup m.sessions sessionID with
  | none =>
    simp only [hw, Option.some.injEq, Prod.mk.injEq] at h
    rw [← h.1]
    exact ⟨hreg, hbus⟩
  | some w =>
    have hid : ({ w with inst := (x.Resume w.inst).1 } : sessionWrapper).id = sessionID :=
      RegInv_lookup sessionID w _ hreg hw
    cases hk : (x.Resume w.inst).2 with
    | some err =>
      simp only [hw, hk, Option.some.injEq, Prod.mk.injEq] at h
      rw [← h.1]
      exact ⟨RegInv_mapInsert _ _ _ hreg hid, hbus⟩
    | none =>
      simp only [hw, hk, Option.map_eq_some', Prod.mk.injEq] at h
      obtain ⟨m3, h3, h4, _⟩ := h
      subst h4
      obtain ⟨hb, hs⟩ := publish_inv _ m3 _ h3 hbus
      refine ⟨?_, hb⟩
      rw [hs]
      exact RegInv_mapInsert _ _ _ hreg hid

/-- `restoreSession` keeps the invariant of the registry and leaves the bus. -/
theorem restoreSession_inv (m : manager) (x : Ext) (data : SessionData)
    (hreg : RegInv m.sessions) :
    RegInv (m.restoreSession x data).1.sessions ∧
      (m.restoreSession x data).1.eventBus = m.eventBus := by
  unfold manager.restoreSession
  cases x.parseTime data.CreatedAt with
  | error e => exact ⟨hreg, rfl⟩
  | ok createdAt =>
    cases x.parseTime data.UpdatedAt with
    | error e => exact ⟨hreg, rfl⟩
    | ok updatedAt =>
      dsimp only
      split
      · exact ⟨hreg, rfl⟩
      · by_cases hp : data.Status ≠ StatusPaused
        · rw [if_pos hp]
          exact ⟨RegInv_mapInsert _ _ _ hreg (spawnWatcher_id _ _), rfl⟩
        · rw [if_neg hp]
          exact ⟨RegInv_mapInsert _ _ _ hreg rfl, rfl⟩

/-- `Start` keeps the invariant of the registry and leaves the bus. -/
theorem Start_inv (m : manager) (x : Ext) (hreg : RegInv m.sessions) :
    RegInv (m.Start x).1.sessions ∧ (m.Start x).1.eventBus = m.eventBus := by
  have hall : ∀ (l : List SessionData) (m1 : manager), RegInv m1.sessions →
      RegInv (m1.restoreAll x l).sessions ∧ (m1.restoreAll x l).eventBus = m1.eventBus := by
    intro l
    induction l with
    | nil => exact fun m1 h => ⟨h, rfl⟩
    | cons d rest ih =>
      intro m1 h
      obtain ⟨h1, h2⟩ := restoreSession_inv m1 x d h
      obtain ⟨h3, h4⟩ := ih _ h1
      exact ⟨h3, h4.trans h2⟩
  unfold manager.Start
  split
  · exact ⟨hreg, rfl⟩
  · exact hall _ m hreg

/-- `Stop` keeps the invariant of the registry and leaves the bus. -/
theorem Stop_inv (m m2 : manager) (x : Ext) (r : Option Error) (hreg : RegInv m.sessions)
    (h : m.Stop x = some (m2, r)) : RegInv m2.sessions ∧ m2.eventBus = m.eventBus := by
  have hmap : RegInv (m.sessions.map fun (kw : String × sessionWrapper) =>
      (kw.1, { kw.2 with watchers := 0 })) := by
    refine ⟨?_, ?_⟩
    · rw [List.map_map]
      exact hreg.1
    · intro kw hkw
      obtain ⟨kw0, h0, h1⟩ := List.mem_map.mp hkw
      rw [← h1]
      exact hreg.2 kw0 h0
  unfold manager.Stop at h
  split at h
  · simp at h
  · simp only [manager.saveAll] at h
    split at h
    · rename_i heq
      simp only [Option.some.injEq, Prod.mk.injEq] at h
      simp only [Prod.mk.injEq] at heq
      rw [← h.1, ← heq.1]
      exact ⟨hmap, rfl⟩
    · rename_i heq
      simp only [Option.some.injEq, Prod.mk.injEq] at h
      simp only [Prod.mk.injEq] at heq
      rw [← h.1, ← heq.1]
      exact ⟨hmap, rfl⟩

/-! ## C6 -/

/-- `Close` on an engine that is not started returns no error and leaves the
engine as it was. -/
theorem Close_not_started (e : Engine) (x : Ext) (h : e.started = false) :
    e.Close x = some (e, none) := by
  simp [Engine.Close, h]

/-- `Close` on a started engine whose manager stops without error: the engine is
not started afterwards and the bus is closed. -/
theorem Close_of_Stop_ok (e : Engine) (x : Ext) (m : manager) (h : e.started = true)
    (hbus : BusInv e.mgr.eventBus) (hreg : RegInv e.mgr.sessions)
    (hstop : e.mgr.Stop x = some (m, none)) :
    ∃ eb, m.eventBus.Close = some eb ∧ eb.closed = true ∧
      e.Close x = some ({ e with mgr := { m with eventBus := eb }, started := false }, none) := by
  obtain ⟨_, hm⟩ := Stop_inv e.mgr m x none hreg hstop
  obtain ⟨eb, h1, _, h3, _⟩ := Close_spec m.eventBus (hm ▸ hbus)
  refine ⟨eb, h1, h3, ?_⟩
  simp [Engine.Close, h, hstop, h1]

/-- `Close` on a started engine whose manager fails to save the sessions: the
error is returned, the engine is still started and the bus is not touched. -/
theorem Close_of_Stop_error (e : Engine) (x : Ext) (m : manager) (err : Error)
    (h : e.started = true) (hstop : e.mgr.Stop x = some (m, some err)) :
    e.Close x = some ({ e with mgr := m }, some (.wrap "failed to stop manager" err)) := by
  simp [Engine.Close, h, hstop]

/-- C6, the save of the sessions failing: the engine made by `New`, started,
with one subscriber of all events. `Close` returns the error of the save and
leaves the engine started, the bus open and the channel of the subscriber open,
while the manager-wide stop channel is closed; a second `Close` panics. -/
theorem Close_save_failure :
    freshEngine.Start testExt = ({ freshEngine with started := true }, none) ∧
    ({ freshEngine with started := true } : Engine).Events "" = some (subscribedEngine, .ok 0) ∧
    subscribedEngine.Close failingSaveExt =
      some ({ subscribedEngine with mgr := { subscribedEngine.mgr with stopCh := true } },
        some (.wrap "failed to stop manager"
          (.wrap "failed to save sessions" (.external "write failed")))) ∧
    ({ subscribedEngine with mgr := { subscribedEngine.mgr with stopCh := true } } : Engine).started
      = true ∧
    ({ subscribedEngine with
        mgr := { subscribedEngine.mgr with stopCh := true } } : Engine).mgr.eventBus.closed
      = false ∧
    ({ subscribedEngine with
        mgr := { subscribedEngine.mgr with stopCh := true } } : Engine).mgr.eventBus.chans
      = [{ cap := 100, buf := [], closed := false }] ∧
    ({ subscribedEngine with mgr := { subscribedEngine.mgr with stopCh := true } } : Engine).Close
      testExt = none ∧
    subscribedEngine.Close testExt =
      some ({ subscribedEngine with
        started := false
        mgr := { subscribedEngine.mgr with
          stopCh := true
          eventBus :=
            { chans := [{ cap := 100, buf := [], closed := true }], subscribers := none,
              globalSubs := [], closed := true } } }, none) := by
  refine ⟨rfl, rfl, rfl, rfl, rfl, rfl, rfl, rfl⟩

/-! ## C13 -/

/-- C13: when the construction of the storage succeeds, `New` with a
configuration and a state backend returns an engine that is not started, with an
empty registry and the open bus made by `NewEventBus`; `New` returns a
ConfigInvalid error ("config cannot be nil" or "appState cannot be nil"), and
more generally an error, exactly when the configuration or the state backend is
absent. -/
theorem New_succeeds_iff (x : Ext) (cfg : Option Config) (appState : Option StateManager)
    (hstore : ∀ a, ∃ s, x.NewStorage a = .ok s) :
    (∀ c a, cfg = some c → appState = some a →
      ∃ e, New x cfg appState = .ok e ∧ e.started = false ∧ e.mgr.sessions = [] ∧
        e.mgr.eventBus = NewEventBus ∧ e.mgr.eventBus.closed = false ∧ e.cfg = some c ∧
        e.mgr.cfg = some c ∧ e.mgr.stopCh = false) ∧
    ((New x cfg appState = .error .configNil ∨ New x cfg appState = .error .appStateNil) ↔
      (cfg = none ∨ appState = none)) ∧
    ((∃ err, New x cfg appState = .error err) ↔ (cfg = none ∨ appState = none)) := by
  cases cfg with
  | none => simp [New]
  | some c =>
    cases appState with
    | none => simp [New]
    | some a =>
      obtain ⟨s, hs⟩ := hstore a
      simp [New, NewFileStorage, hs, newManager, NewEventBus]

/-- C13, at the calls of `TestEngineCreation` and `TestEngineErrorHandling`:
`New(cfg, state)` succeeds, `New(nil, state)` and `New(cfg, nil)` fail. -/
theorem New_succeeds_iff_witness :
    New testExt (some testCfg) (some testState) = .ok freshEngine ∧
    New testExt none (some testState) = .error .configNil ∧
    New testExt (some testCfg) none = .error .appStateNil ∧
    ((∀ c a, some testCfg = some c → some testState = some a →
      ∃ e, New testExt (some testCfg) (some testState) = .ok e ∧ e.started = false ∧
        e.mgr.sessions = [] ∧ e.mgr.eventBus = NewEventBus ∧ e.mgr.eventBus.closed = false ∧
        e.cfg = some c ∧ e.mgr.cfg = some c ∧ e.mgr.stopCh = false) ∧
    ((New testExt (some testCfg) (some testState) = .error .configNil ∨
        New testExt (some testCfg) (some testState) = .error .appStateNil) ↔
      (some testCfg = none ∨ some testState = none)) ∧
    ((∃ err, New testExt (some testCfg) (some testState) = .error err) ↔
      (some testCfg = none ∨ some testState = none))) :=
  ⟨rfl, rfl, rfl,
    New_succeeds_iff testExt (some testCfg) (some testState) (fun a => ⟨{ state := a }, rfl⟩)⟩

/-! ## C14 -/

/-- What `Start` of the engine returns, by the state of the engine and the
result of loading the sessions. -/
theorem Engine_Start_cases (e : Engine) (x : Ext) :
    (e.started = true → e.Start x = (e, some .alreadyStarted)) ∧
    (e.started = false → ∀ records, e.mgr.store.LoadSessions x = .ok records →
      e.Start x = ({ e with mgr := e.mgr.restoreAll x records, started := true }, none)) ∧
    (e.started = false → ∀ err, e.mgr.store.LoadSessions x = .error err →
      e.Start x =
        (e, some (.wrap "failed to start manager" (.wrap "failed to load sessions" err)))) := by
  refine ⟨?_, ?_, ?_⟩
  · intro h
    simp [Engine.Start, h]
  · intro h records hl
    simp [Engine.Start, h, manager.Start, hl]
  · intro h err hl
    obtain ⟨mgr, cfg, started⟩ := e
    simp only at h hl
    subst h
    simp [Engine.Start, manager.Start, hl]

/-- C14: `Start` on an engine that is not started, when the sessions load, restores
them and makes the engine started; `Start` on a started engine returns the
AlreadyStarted error and leaves the whole engine as it was (started, the
registry and the record of the calls on session handles unchanged: no session is
restored again); `Start` on an engine that is not started, when the load of the
sessions fails, returns that error, wrapped, and leaves the whole engine as it
was, not started. -/
theorem Start_lifecycle (e : Engine) (x : Ext) :
    (e.started = true →
      e.Start x = (e, some .alreadyStarted) ∧ (e.Start x).1.started = true ∧
      (e.Start x).1.mgr.sessions = e.mgr.sessions ∧ (e.Start x).1.mgr.calls = e.mgr.calls) ∧
    (e.started = false → ∀ records, e.mgr.store.LoadSessions x = .ok records →
      e.Start x = ({ e with mgr := e.mgr.restoreAll x records, started := true }, none) ∧
      (e.Start x).1.started = true) ∧
    (e.started = false → ∀ err, e.mgr.store.LoadSessions x = .error err →
      e.Start x =
        (e, some (.wrap "failed to start manager" (.wrap "failed to load sessions" err))) ∧
      (e.Start x).1.started = false) := by
  obtain ⟨h1, h2, h3⟩ := Engine_Start_cases e x
  refine ⟨?_, ?_, ?_⟩
  · intro h
    rw [h1 h]
    exact ⟨rfl, h, rfl, rfl⟩
  · intro h records hl
    rw [h2 h records hl]
    exact ⟨rfl, rfl⟩
  · intro h err hl
    rw [h3 h err hl]
    exact ⟨rfl, h⟩

/-- C14, at the calls of `TestEngineStartStop`: `Start` succeeds on the engine
made by `New`, a second `Start` fails and changes nothing; and `Start` fails
when the stored instances cannot be loaded. -/
theorem Start_lifecycle_witness :
    freshEngine.Start testExt = ({ freshEngine with started := true }, none) ∧
    ({ freshEngine with started := true } : Engine).Start testExt =
      ({ freshEngine with started := true }, some .alreadyStarted) ∧
    freshEngine.Start failingLoadExt =
      (freshEngine, some (.wrap "failed to start manager"
        (.wrap "failed to load sessions"
          (.wrap "failed to load instances" (.external "read failed"))))) ∧
    (freshEngine.started = false → ∀ records,
      freshEngine.mgr.store.LoadSessions testExt = .ok records →
      freshEngine.Start testExt =
        ({ freshEngine with mgr := freshEngine.mgr.restoreAll testExt records, started := true },
          none) ∧
      (freshEngine.Start testExt).1.started = true) :=
  ⟨rfl, rfl, rfl, (Start_lifecycle freshEngine testExt).2.1⟩

/-! ## C11 -/

theorem mem_keys_mapInsert {β : Type} (k k2 : String) (v : β) (m : List (String × β)) :
    k2 ∈ (mapInsert k v m).map Prod.fst ↔ k2 = k ∨ k2 ∈ m.map Prod.fst := by
  by_cases hk : k ∈ m.map Prod.fst
  · rw [mapInsert_keys_of_present k v m hk]
    constructor
    · exact Or.inr
    · rintro (h | h)
      · rw [h]
        exact hk
      · exact h
  · rw [mapInsert_of_absent k v m hk]
    simp only [List.map_append, List.map_cons, List.map_nil, List.mem_append, List.mem_singleton]
    exact Or.comm

/-- What `restoreSession` does to the registry: nothing for a record that is not
restorable, and one wrapper stored under the id of the record otherwise. -/
theorem restoreSession_sessions (m : manager) (x : Ext) (data : SessionData) :
    (restorable x data = false → (m.restoreSession x data).1.sessions = m.sessions) ∧
    (restorable x data = true → ∃ w : sessionWrapper, w.id = data.ID ∧
      (m.restoreSession x data).1.sessions = mapInsert data.ID w m.sessions) := by
  unfold manager.restoreSession restorable
  cases x.parseTime data.CreatedAt with
  | error e => simp
  | ok createdAt =>
    cases x.parseTime data.UpdatedAt with
    | error e => simp
    | ok updatedAt =>
      dsimp only
      split
      · simp
      · by_cases hp : data.Status ≠ StatusPaused
        · rw [if_pos hp]
          simp only [Bool.true_eq_false, false_implies, true_and, forall_const]
          exact ⟨_, spawnWatcher_id _ _, rfl⟩
        · rw [if_neg hp]
          simp only [Bool.true_eq_false, false_implies, true_and, forall_const]
          exact ⟨_, rfl, rfl⟩

/-- The ids registered after the loop of `Start`: the ids registered before and
the ids of the restorable records. -/
theorem restoreAll_keys (x : Ext) (records : List SessionData) :
    ∀ (m : manager) (id : String),
      id ∈ (m.restoreAll x records).sessions.map Prod.fst ↔
        (id ∈ m.sessions.map Prod.fst ∨ ∃ r ∈ records, r.ID = id ∧ restorable x r = true) := by
  induction records with
  | nil =>
    intro m id
    simp [manager.restoreAll]
  | cons d rest ih =>
    intro m id
    simp only [manager.restoreAll]
    rw [ih]
    obtain ⟨h1, h2⟩ := restoreSession_sessions m x d
    cases hr : restorable x d with
    | false =>
      rw [h1 hr]
      simp only [List.mem_cons, exists_eq_or_imp, hr, Bool.false_eq_true, and_false, false_or]
    | true =>
      obtain ⟨w, _, hs⟩ := h2 hr
      rw [hs, mem_keys_mapInsert]
      simp only [List.mem_cons, exists_eq_or_imp, hr, and_true]
      constructor
      · rintro ((h | h) | h)
        · exact Or.inr (Or.inl h.symm)
        · exact Or.inl h
        · exact Or.inr (Or.inr h)
      · rintro (h | h | h)
        · exact Or.inl (Or.inr h)
        · exact Or.inl (Or.inl h.symm)
        · exact Or.inr h

/-- The ids registered after the loop of `Start`, for records with pairwise
distinct ids that are not registered: the ids registered before, followed by the
ids of the restorable records. -/
theorem restoreAll_keys_distinct (x : Ext) (records : List SessionData) :
    ∀ m : manager, (records.map fun r => r.ID).Nodup →
      (∀ r ∈ records, r.ID ∉ m.sessions.map Prod.fst) →
      (m.restoreAll x records).sessions.map Prod.fst =
        m.sessions.map Prod.fst ++ (records.filter (restorable x)).map fun r => r.ID := by
  induction records with
  | nil =>
    intro m _ _
    simp [manager.restoreAll]
  | cons d rest ih =>
    intro m hnd hfresh
    simp only [List.map_cons, List.nodup_cons] at hnd
    simp only [manager.restoreAll]
    obtain ⟨h1, h2⟩ := restoreSession_sessions m x d
    have hd : d.ID ∉ m.sessions.map Prod.fst := hfresh d (List.mem_cons_self _ _)
    cases hr : restorable x d with
    | false =>
      rw [ih _ hnd.2 (by
        intro r hrm
        rw [h1 hr]
        exact hfresh r (List.mem_cons_of_mem _ hrm)), h1 hr]
      simp [List.filter_cons, hr]
    | true =>
      obtain ⟨w, _, hs⟩ := h2 hr
      rw [ih _ hnd.2 (by
        intro r hrm
        rw [hs, mem_keys_mapInsert]
        rintro (h | h)
        · exact hnd.1 (List.mem_map.mpr ⟨r, hrm, h⟩)
        · exact hfresh r (List.mem_cons_of_mem _ hrm) h), hs, mapInsert_of_absent _ _ _ hd]
      simp [List.filter_cons, hr]

theorem restoreAll_RegInv (x : Ext) (records : List SessionData) :
    ∀ m : manager, RegInv m.sessions → RegInv (m.restoreAll x records).sessions := by
  induction records with
  | nil => exact fun m h => h
  | cons d rest ih =>
    intro m h
    exact ih _ (restoreSession_inv m x d h).1

theorem List_ids_keys (m : manager) (x : Ext) (hreg : RegInv m.sessions) :
    (m.List x).map (fun info => info.ID) = m.sessions.map Prod.fst := by
  rw [List_ids]
  apply List.map_congr_left
  intro kw hkw
  exact hreg.2 kw hkw

theorem restoreSession_stopCh (m : manager) (x : Ext) (data : SessionData) :
    (m.restoreSession x data).1.stopCh = m.stopCh := by
  unfold manager.restoreSession
  cases x.parseTime data.CreatedAt with
  | error e => rfl
  | ok createdAt =>
    cases x.parseTime data.UpdatedAt with
    | error e => rfl
    | ok updatedAt =>
      dsimp only
      split
      · rfl
      · by_cases hp : data.Status ≠ StatusPaused
        · rw [if_pos hp]
        · rw [if_neg hp]

theorem restoreAll_stopCh (x : Ext) (records : List SessionData) :
    ∀ m : manager, (m.restoreAll x records).stopCh = m.stopCh := by
  induction records with
  | nil => exact fun m => rfl
  | cons d rest ih =>
    intro m
    simp only [manager.restoreAll]
    rw [ih, restoreSession_stopCh]

theorem restoreAll_append (x : Ext) (pre post : List SessionData) :
    ∀ m : manager, m.restoreAll x (pre ++ post) = (m.restoreAll x pre).restoreAll x post := by
  induction pre with
  | nil => exact fun m => rfl
  | cons d rest ih =>
    intro m
    simp only [List.cons_append, manager.restoreAll]
    exact ih _

/-- A record is restorable exactly when its two times parse and the collaborator
returns a handle for its data. -/
theorem restorable_iff (x : Ext) (r : SessionData) :
    restorable x r = true ↔
      ∃ (c u : Time) (inst : Instance), x.parseTime r.CreatedAt = .ok c ∧
        x.parseTime r.UpdatedAt = .ok u ∧ x.FromInstanceData (instanceDataOf r c u) = .ok inst := by
  unfold restorable instanceDataOf
  cases x.parseTime r.CreatedAt with
  | error e => simp
  | ok c =>
    cases x.parseTime r.UpdatedAt with
    | error e => simp
    | ok u =>
      dsimp only
      split
      · rename_i e he
        simp [he]
      · rename_i inst he
        simp [he]

/-- What `restoreSession` registers for a record whose times parse and whose
handle the collaborator returns: a wrapper with that handle under the id of the
record, nothing cached, the stop channel open, and a watcher unless the record
is paused or the manager is stopped. -/
theorem restoreSession_restored (m : manager) (x : Ext) (data : SessionData) (c u : Time)
    (inst : Instance) (hc : x.parseTime data.CreatedAt = .ok c)
    (hu : x.parseTime data.UpdatedAt = .ok u)
    (hi : x.FromInstanceData (instanceDataOf data c u) = .ok inst) :
    (m.restoreSession x data).1.sessions =
      mapInsert data.ID
        { inst := inst, id := data.ID, lastStdout := "", lastDiff := none, stopCh := false,
          watchers := if data.Status ≠ StatusPaused ∧ m.stopCh = false then 1 else 0 }
        m.sessions := by
  unfold instanceDataOf at hi
  unfold manager.restoreSession
  simp only [hc, hu, hi]
  by_cases hp : data.Status ≠ StatusPaused
  · rw [if_pos hp]
    cases hs : m.stopCh <;> simp [manager.spawnWatcher, hs, hp]
  · rw [if_neg hp]
    simp [hp]

/-- The loop of `Start` leaves the entry of an id alone when no restorable record
has that id. -/
theorem restoreAll_lookup_skip (x : Ext) (id : String) (records : List SessionData) :
    (∀ r ∈ records, r.ID = id → restorable x r = false) →
    ∀ m : manager, mapLookup (m.restoreAll x records).sessions id = mapLookup m.sessions id := by
  induction records with
  | nil => exact fun _ m => rfl
  | cons d rest ih =>
    intro h m
    simp only [manager.restoreAll]
    rw [ih (fun r hr => h r (List.mem_cons_of_mem _ hr))]
    obtain ⟨h1, h2⟩ := restoreSession_sessions m x d
    cases hr : restorable x d with
    | false => rw [h1 hr]
    | true =>
      obtain ⟨w, _, hs⟩ := h2 hr
      have hne : id ≠ d.ID := by
        intro e
        have := h d (List.mem_cons_self _ _) e.symm
        rw [hr] at this
        exact Bool.noConfusion this
      rw [hs, mapLookup_mapInsert_ne _ _ _ _ hne]

/-- The entry of an id after the loop of `Start`: the wrapper made from the last
restorable record with that id. -/
theorem restoreAll_lookup_last (x : Ext) (m : manager) (pre post : List SessionData)
    (r : SessionData) (c u : Time) (inst : Instance)
    (hpost : ∀ r2 ∈ post, r2.ID = r.ID → restorable x r2 = false)
    (hc : x.parseTime r.CreatedAt = .ok c) (hu : x.parseTime r.UpdatedAt = .ok u)
    (hi : x.FromInstanceData (instanceDataOf r c u) = .ok inst) :
    mapLookup (m.restoreAll x (pre ++ r :: post)).sessions r.ID =
      some { inst := inst, id := r.ID, lastStdout := "", lastDiff := none, stopCh := false,
             watchers := if r.Status ≠ StatusPaused ∧ m.stopCh = false then 1 else 0 } := by
  rw [restoreAll_append]
  simp only [manager.restoreAll]
  rw [restoreAll_lookup_skip x r.ID post hpost,
    restoreSession_restored _ x r c u inst hc hu hi, mapLookup_mapInsert_self,
    restoreAll_stopCh]

/-- The last element of a list with a given property. -/
theorem exists_last_split {α : Type} (p : α → Prop) (l : List α) (h : ∃ a ∈ l, p a) :
    ∃ (pre : List α) (a : α) (post : List α),
      l = pre ++ a :: post ∧ p a ∧ ∀ b ∈ post, ¬ p b := by
  induction l with
  | nil => simp at h
  | cons d rest ih =>
    by_cases hrest : ∃ a ∈ rest, p a
    · obtain ⟨pre, a, post, h1, h2, h3⟩ := ih hrest
      exact ⟨d :: pre, a, post, by rw [h1]; rfl, h2, h3⟩
    · obtain ⟨a, ha, hpa⟩ := h
      rcases List.mem_cons.mp ha with e | e
      · subst e
        exact ⟨[], a, rest, rfl, hpa, fun b hb hpb => hrest ⟨b, hb, hpb⟩⟩
      · exact absurd ⟨a, e, hpa⟩ hrest

theorem mapLookup_of_mem {β : Type} (m : List (String × β)) (k : String) (v : β)
    (hnd : (m.map Prod.fst).Nodup) (h : (k, v) ∈ m) : mapLookup m k = some v := by
  induction m with
  | nil => simp at h
  | cons p rest ih =>
    obtain ⟨k1, v1⟩ := p
    simp only [List.map_cons, List.nodup_cons] at hnd
    rcases List.mem_cons.mp h with e | e
    · simp only [Prod.mk.injEq] at e
      simp [mapLookup, e.1, e.2]
    · have hne : k1 ≠ k := by
        intro e2
        apply hnd.1
        rw [e2]
        exact List.mem_map.mpr ⟨(k, v), e, rfl⟩
      simp only [mapLookup, hne, if_false]
      exact ih hnd.2 e

/-- The registry after the loop of `Start` on an empty registry: under each id,
the wrapper made from the last restorable record with that id, and nothing
under the other ids. -/
theorem restoreAll_lookup (x : Ext) (m : manager) (records : List SessionData)
    (hempty : m.sessions = []) (id : String) (w : sessionWrapper) :
    mapLookup (m.restoreAll x records).sessions id = some w ↔
      ∃ (pre : List SessionData) (r : SessionData) (post : List SessionData) (c u : Time)
        (inst : Instance),
        records = pre ++ r :: post ∧ r.ID = id ∧
        (∀ r2 ∈ post, r2.ID = r.ID → restorable x r2 = false) ∧
        x.parseTime r.CreatedAt = .ok c ∧ x.parseTime r.UpdatedAt = .ok u ∧
        x.FromInstanceData (instanceDataOf r c u) = .ok inst ∧
        w = { inst := inst, id := r.ID, lastStdout := "", lastDiff := none, stopCh := false,
              watchers := if r.Status ≠ StatusPaused ∧ m.stopCh = false then 1 else 0 } := by
  constructor
  · intro h
    by_cases hex : ∃ r ∈ records, r.ID = id ∧ restorable x r = true
    · obtain ⟨pre, r, post, h1, ⟨h2, h3⟩, h4⟩ :=
        exists_last_split (fun r => r.ID = id ∧ restorable x r = true) records hex
      obtain ⟨c, u, inst, hc, hu, hi⟩ := (restorable_iff x r).mp h3
      have hpost : ∀ r2 ∈ post, r2.ID = r.ID → restorable x r2 = false := by
        intro r2 hr2 hid
        cases hr : restorable x r2 with
        | false => rfl
        | true => exact absurd ⟨hid.trans h2, hr⟩ (h4 r2 hr2)
      refine ⟨pre, r, post, c, u, inst, h1, h2, hpost, hc, hu, hi, ?_⟩
      have h5 := restoreAll_lookup_last x m pre post r c u inst hpost hc hu hi
      subst h2
      rw [← h1, h] at h5
      exact Option.some.inj h5
    · have hskip : ∀ r ∈ records, r.ID = id → restorable x r = false := by
        intro r hr hid
        cases hres : restorable x r with
        | false => rfl
        | true => exact absurd ⟨r, hr, hid, hres⟩ hex
      rw [restoreAll_lookup_skip x id records hskip, hempty] at h
      simp [mapLookup] at h
  · rintro ⟨pre, r, post, c, u, inst, h1, h2, hpost, hc, hu, hi, hw⟩
    rw [h1, ← h2, hw]
    exact restoreAll_lookup_last x m pre post r c u inst hpost hc hu hi

/-- C11: for every list of records that the storage adapter returns to a manager
with an empty registry, `Start` returns no error, and `List()` afterwards has an
entry with a given id exactly when a record with that id is restorable (its
created-at and its updated-at parse and the collaborator reconstructs its
handle); no id occurs twice in `List()`; when the records have pairwise distinct
ids, `List()` has exactly one entry for each restorable record and no other
entry. A record whose created-at does not parse is not restorable: it is
skipped, and the restorable records appear all the same. The entries are those
of the records: the registry holds, under an id, exactly the wrapper made from
the last restorable record with that id (the only one when the ids are
distinct), with the handle that the collaborator returned for the data of that
record (title, path, branch, status, program, auto-yes, worktree, diff
statistics and the two parsed times), nothing cached, the stop channel open and
a watcher unless the record is paused or the manager is stopped; the entries of
`List()` are exactly the descriptions of these handles under the ids of their
records; and when the handle gives back the data it was made from, the entry
shows the fields of the record, with the status as the handle keeps it. -/
theorem Start_restores_valid_records (m : manager) (x : Ext) (records : List SessionData)
    (hload : m.store.LoadSessions x = .ok records) (hempty : m.sessions = []) :
    (m.Start x).2 = none ∧
    (∀ id, id ∈ ((m.Start x).1.List x).map (fun info => info.ID) ↔
      ∃ r ∈ records, r.ID = id ∧ restorable x r = true) ∧
    (((m.Start x).1.List x).map fun info => info.ID).Nodup ∧
    ((records.map fun r => r.ID).Nodup →
      List.Perm (((m.Start x).1.List x).map fun info => info.ID)
        ((records.filter (restorable x)).map fun r => r.ID)) ∧
    (∀ r ∈ records, (∃ err, x.parseTime r.CreatedAt = .error err) → restorable x r = false) ∧
    (∀ r : SessionData, restorable x r = true ↔
      ∃ (c u : Time) (inst : Instance), x.parseTime r.CreatedAt = .ok c ∧
        x.parseTime r.UpdatedAt = .ok u ∧
        x.FromInstanceData
          { Title := r.Title, Path := r.Path, Branch := r.Branch,
            Status := convertToSessionStatus r.Status, Program := r.Program,
            AutoYes := r.AutoYes, CreatedAt := c, UpdatedAt := u, Worktree := r.Worktree,
            DiffStats := r.DiffStats } = .ok inst) ∧
    (∀ (id : String) (w : sessionWrapper), (m.Start x).1.Get id = .ok w ↔
      ∃ (pre : List SessionData) (r : SessionData) (post : List SessionData) (c u : Time)
        (inst : Instance),
        records = pre ++ r :: post ∧ r.ID = id ∧
        (∀ r2 ∈ post, r2.ID = r.ID → restorable x r2 = false) ∧
        x.parseTime r.CreatedAt = .ok c ∧ x.parseTime r.UpdatedAt = .ok u ∧
        x.FromInstanceData
          { Title := r.Title, Path := r.Path, Branch := r.Branch,
            Status := convertToSessionStatus r.Status, Program := r.Program,
            AutoYes := r.AutoYes, CreatedAt := c, UpdatedAt := u, Worktree := r.Worktree,
            DiffStats := r.DiffStats } = .ok inst ∧
        w = { inst := inst, id := r.ID, lastStdout := "", lastDiff := none, stopCh := false,
              watchers := if r.Status ≠ StatusPaused ∧ m.stopCh = false then 1 else 0 }) ∧
    (∀ info : SessionInfo, info ∈ (m.Start x).1.List x ↔
      ∃ (pre : List SessionData) (r : SessionData) (post : List SessionData) (c u : Time)
        (inst : Instance),
        records = pre ++ r :: post ∧
        (∀ r2 ∈ post, r2.ID = r.ID → restorable x r2 = false) ∧
        x.parseTime r.CreatedAt = .ok c ∧ x.parseTime r.UpdatedAt = .ok u ∧
        x.FromInstanceData
          { Title := r.Title, Path := r.Path, Branch := r.Branch,
            Status := convertToSessionStatus r.Status, Program := r.Program,
            AutoYes := r.AutoYes, CreatedAt := c, UpdatedAt := u, Worktree := r.Worktree,
            DiffStats := r.DiffStats } = .ok inst ∧
        info =
          { ID := r.ID
            Title := (x.ToInstanceData inst).Title
            Path := (x.ToInstanceData inst).Path
            Branch := (x.ToInstanceData inst).Branch
            Status := convertStatus (x.ToInstanceData inst).Status
            Program := (x.ToInstanceData inst).Program
            AutoYes := (x.ToInstanceData inst).AutoYes
            CreatedAt := (x.ToInstanceData inst).CreatedAt
            UpdatedAt := (x.ToInstanceData inst).UpdatedAt
            DiffStats := convertDiffStats (x.GetDiffStats inst) }) ∧
    (∀ (pre : List SessionData) (r : SessionData) (post : List SessionData) (c u : Time)
        (inst : Instance),
      records = pre ++ r :: post →
      (∀ r2 ∈ post, r2.ID = r.ID → restorable x r2 = false) →
      x.parseTime r.CreatedAt = .ok c → x.parseTime r.UpdatedAt = .ok u →
      x.FromInstanceData
        { Title := r.Title, Path := r.Path, Branch := r.Branch,
          Status := convertToSessionStatus r.Status, Program := r.Program,
          AutoYes := r.AutoYes, CreatedAt := c, UpdatedAt := u, Worktree := r.Worktree,
          DiffStats := r.DiffStats } = .ok inst →
      x.ToInstanceData inst =
        { Title := r.Title, Path := r.Path, Branch := r.Branch,
          Status := convertToSessionStatus r.Status, Program := r.Program,
          AutoYes := r.AutoYes, CreatedAt := c, UpdatedAt := u, Worktree := r.Worktree,
          DiffStats := r.DiffStats } →
      ({ ID := r.ID
         Title := r.Title
         Path := r.Path
         Branch := r.Branch
         Status := convertStatus (convertToSessionStatus r.Status)
         Program := r.Program
         AutoYes := r.AutoYes
         CreatedAt := c
         UpdatedAt := u
         DiffStats := convertDiffStats (x.GetDiffStats inst) } : SessionInfo)
        ∈ (m.Start x).1.List x) := by
  have hstart : m.Start x = (m.restoreAll x records, none) := by
    simp [manager.Start, hload]
  have hreg0 : RegInv m.sessions := by
    rw [hempty]
    exact RegInv_nil
  have hreg := restoreAll_RegInv x records m hreg0
  have hlist : ∀ info : SessionInfo, info ∈ (m.restoreAll x records).List x ↔
      ∃ (pre : List SessionData) (r : SessionData) (post : List SessionData) (c u : Time)
        (inst : Instance),
        records = pre ++ r :: post ∧
        (∀ r2 ∈ post, r2.ID = r.ID → restorable x r2 = false) ∧
        x.parseTime r.CreatedAt = .ok c ∧ x.parseTime r.UpdatedAt = .ok u ∧
        x.FromInstanceData (instanceDataOf r c u) = .ok inst ∧
        info =
          { ID := r.ID
            Title := (x.ToInstanceData inst).Title
            Path := (x.ToInstanceData inst).Path
            Branch := (x.ToInstanceData inst).Branch
            Status := convertStatus (x.ToInstanceData inst).Status
            Program := (x.ToInstanceData inst).Program
            AutoYes := (x.ToInstanceData inst).AutoYes
            CreatedAt := (x.ToInstanceData inst).CreatedAt
            UpdatedAt := (x.ToInstanceData inst).UpdatedAt
            DiffStats := convertDiffStats (x.GetDiffStats inst) } := by
    intro info
    simp only [manager.List, List.mem_map]
    constructor
    · rintro ⟨⟨k, w⟩, hkw, hinfo⟩
      have hlook := mapLookup_of_mem _ k w hreg.1 hkw
      obtain ⟨pre, r, post, c, u, inst, h1, _, h3, hc, hu, hi, hw⟩ :=
        (restoreAll_lookup x m records hempty k w).mp hlook
      refine ⟨pre, r, post, c, u, inst, h1, h3, hc, hu, hi, ?_⟩
      rw [← hinfo]
      simp only [hw]
      rfl
    · rintro ⟨pre, r, post, c, u, inst, h1, h3, hc, hu, hi, hinfo⟩
      have hlook := (restoreAll_lookup x m records hempty r.ID _).mpr
        ⟨pre, r, post, c, u, inst, h1, rfl, h3, hc, hu, hi, rfl⟩
      refine ⟨(r.ID, _), mapLookup_mem _ _ _ hlook, ?_⟩
      rw [hinfo]
      rfl
  rw [hstart]
  refine ⟨rfl, ?_, ?_, ?_, ?_, ?_, ?_, hlist, ?_⟩
  · intro id
    rw [List_ids_keys _ x hreg, restoreAll_keys, hempty]
    simp
  · rw [List_ids_keys _ x hreg]
    exact hreg.1
  · intro hnd
    rw [List_ids_keys _ x hreg, restoreAll_keys_distinct x records m hnd (by simp [hempty]), hempty]
    simp
  · rintro r _ ⟨err, herr⟩
    simp [restorable, herr]
  · exact restorable_iff x
  · intro id w
    have hlook := restoreAll_lookup x m records hempty id w
    simp only [instanceDataOf] at hlook
    rw [← hlook]
    simp only [manager.Get]
    cases mapLookup (m.restoreAll x records).sessions id with
    | none => simp
    | some w2 => simp
  · intro pre r post c u inst h1 h3 hc hu hi hrt
    apply (hlist _).mpr
    refine ⟨pre, r, post, c, u, inst, h1, h3, hc, hu, hi, ?_⟩
    have hrt2 : x.ToInstanceData inst = instanceDataOf r c u := hrt
    rw [hrt2]
    rfl

/-- C11, with a stored record "a" whose created-at does not parse, followed by a
record "b": `Start` returns no error, `List()` is the one entry of the record
"b", with the fields of that record, and the registry holds its handle under
"b", with a watcher. -/
theorem Start_restores_valid_records_witness :
    testManager.store.LoadSessions corruptStoreExt = .ok corruptRecords ∧
    testManager.sessions = [] ∧
    restorable corruptStoreExt unparsableRecord = false ∧
    (testManager.Start corruptStoreExt).2 = none ∧
    (testManager.Start corruptStoreExt).1.List corruptStoreExt = [parsableInfo] ∧
    (testManager.Start corruptStoreExt).1.Get "b" =
      .ok { inst := parsableInstance, id := "b", lastStdout := "", lastDiff := none,
            stopCh := false, watchers := 1 } ∧
    parsableInfo ∈ (testManager.Start corruptStoreExt).1.List corruptStoreExt :=
  ⟨by rfl, rfl, by rfl,
    (Start_restores_valid_records testManager corruptStoreExt corruptRecords (by rfl) rfl).1,
    by rfl, by rfl,
    (Start_restores_valid_records testManager corruptStoreExt corruptRecords
      (by rfl) rfl).2.2.2.2.2.2.2.2 [unparsableRecord] parsableRecord [] 1 1 parsableInstance
      rfl (by simp) (by rfl) (by rfl) (by rfl) (by rfl)⟩

/-! ## C15 -/

theorem LoadSessions_eq (fs : fileStorage) (x : Ext) (instances : List Instance)
    (h : x.LoadInstances fs.sessionStorage = .ok instances) :
    fs.LoadSessions x = .ok (instances.map (instanceToSessionData x)) := by
  simp only [fileStorage.LoadSessions, h]
  rfl

/-- When the loop of `SaveSessions` makes an instance from a record, both time
stamps parsed and the collaborator made the instance from `instanceDataOf`. -/
theorem sessionDataToInstance_ok (x : Ext) (r : SessionData) (inst : Instance)
    (h : sessionDataToInstance x r = .ok inst) :
    ∃ c u, x.parseTime r.CreatedAt = .ok c ∧ x.parseTime r.UpdatedAt = .ok u ∧
      x.FromInstanceData (instanceDataOf r c u) = .ok inst := by
  unfold sessionDataToInstance parseTime at h
  cases hc : x.parseTime r.CreatedAt with
  | error e => simp [hc] at h
  | ok c =>
    cases hu : x.parseTime r.UpdatedAt with
    | error e => simp [hc, hu] at h
    | ok u =>
      simp only [hc, hu] at h
      cases hf : x.FromInstanceData (instanceDataOf r c u) with
      | error e =>
        unfold instanceDataOf at hf
        simp [hf] at h
      | ok i =>
        unfold instanceDataOf at hf
        simp only [hf, Except.ok.injEq] at h
        exact ⟨c, u, rfl, rfl, h ▸ hf⟩

/-- The records loaded from the instances that `SaveSessions` made from the
records `rs`, when the handle gives back the data it was made from and the time
stamps are written as they were read. -/
theorem instances_reloaded (x : Ext) (rs : List SessionData) :
    ∀ instances : List Instance, sessionsToInstances x rs = .ok instances →
      (∀ r ∈ rs, ∀ c u i, x.parseTime r.CreatedAt = .ok c → x.parseTime r.UpdatedAt = .ok u →
        x.FromInstanceData (instanceDataOf r c u) = .ok i →
        x.ToInstanceData i = instanceDataOf r c u) →
      (∀ r ∈ rs, ∀ c, x.parseTime r.CreatedAt = .ok c → x.formatTime c = r.CreatedAt) →
      (∀ r ∈ rs, ∀ u, x.parseTime r.UpdatedAt = .ok u → x.formatTime u = r.UpdatedAt) →
      instances.map (instanceToSessionData x) = rs.map reloaded := by
  induction rs with
  | nil =>
    intro instances h _ _ _
    simp only [sessionsToInstances, Except.ok.injEq] at h
    rw [← h]
    rfl
  | cons r rest ih =>
    intro instances h hdata hc hu
    unfold sessionsToInstances at h
    cases h1 : sessionDataToInstance x r with
    | error e => simp [h1] at h
    | ok inst =>
      cases h2 : sessionsToInstances x rest with
      | error e => simp [h1, h2] at h
      | ok insts =>
        simp only [h1, h2, Except.ok.injEq] at h
        rw [← h]
        obtain ⟨c, u, hpc, hpu, hf⟩ := sessionDataToInstance_ok x r inst h1
        have hd := hdata r (List.mem_cons_self _ _) c u inst hpc hpu hf
        have hfc := hc r (List.mem_cons_self _ _) c hpc
        have hfu := hu r (List.mem_cons_self _ _) u hpu
        have hrest := ih insts h2
          (fun q hq => hdata q (List.mem_cons_of_mem _ hq))
          (fun q hq => hc q (List.mem_cons_of_mem _ hq))
          (fun q hq => hu q (List.mem_cons_of_mem _ hq))
        simp only [List.map_cons, hrest, List.cons.injEq, and_true]
        simp [instanceToSessionData, hd, instanceDataOf, reloaded, hfc, hfu]

theorem convertStatus_roundtrip (s : Status)
    (h : s ∈ [StatusRunning, StatusReady, StatusLoading, StatusPaused]) :
    convertStatus (convertToSessionStatus s) = s := by
  simp only [List.mem_cons, List.mem_singleton, List.not_mem_nil, or_false] at h
  rcases h with h | h | h | h <;> subst h <;> decide

/-- C12 as stated fails on two records that `SaveSessions` accepts, with a
storage that returns the instances it was given and handles that give back the
data they were made from: the record saved with the id "session-1" and the
title "a" is loaded with the id "a", and the record saved with the status
"archived" is loaded with the status "ready". -/
theorem Save_then_Load_counterexample :
    (testStore.SaveSessions roundTripExt [recordA, recordB]).2 = none ∧
    sessionsToInstances roundTripExt [recordA, recordB] = .ok savedInstances ∧
    roundTripExt.LoadInstances
      (testStore.SaveSessions roundTripExt [recordA, recordB]).1.sessionStorage
      = .ok savedInstances ∧
    (testStore.SaveSessions roundTripExt [recordA, recordB]).1.LoadSessions roundTripExt =
      .ok [{ recordA with ID := "a" }, { recordB with Status := "ready" }] ∧
    ({ recordA with ID := "a" } : SessionData).ID ≠ recordA.ID ∧
    ({ recordB with Status := "ready" } : SessionData).Status ≠ recordB.Status :=
  ⟨by rfl, by rfl, by rfl, by rfl, by decide, by decide⟩

/-- C12, amended: for every list of records that `SaveSessions` accepts, when the
storage returns the instances it was given, the handle made from a record gives
back the data it was made from, and the time stamps of the records are written
as they were read: `LoadSessions` after `SaveSessions` returns the records in
the same order, each with its title, path, branch, program, auto-continue flag,
created-at, updated-at, worktree descriptor and diff statistics, with the id
made from the title, and with the status that the conversion to the handle's
status and back gives; a record whose id is made from its title and whose
status is one of the four statuses is returned as it was saved. -/
theorem Save_then_Load (fs : fileStorage) (x : Ext) (rs : List SessionData)
    (haccept : (fs.SaveSessions x rs).2 = none)
    (hstore : ∀ instances, sessionsToInstances x rs = .ok instances →
      x.LoadInstances (x.SaveInstances fs.sessionStorage instances).1 = .ok instances)
    (hdata : ∀ r ∈ rs, ∀ c u i, x.parseTime r.CreatedAt = .ok c →
      x.parseTime r.UpdatedAt = .ok u → x.FromInstanceData (instanceDataOf r c u) = .ok i →
      x.ToInstanceData i = instanceDataOf r c u)
    (hcreated : ∀ r ∈ rs, ∀ c, x.parseTime r.CreatedAt = .ok c → x.formatTime c = r.CreatedAt)
    (hupdated : ∀ r ∈ rs, ∀ u, x.parseTime r.UpdatedAt = .ok u → x.formatTime u = r.UpdatedAt) :
    (fs.SaveSessions x rs).1.LoadSessions x =
      .ok (rs.map fun r => { r with
        ID := generateSessionID r.Title
        Status := convertStatus (convertToSessionStatus r.Status) }) ∧
    (∀ r ∈ rs, r.ID = generateSessionID r.Title →
      r.Status ∈ [StatusRunning, StatusReady, StatusLoading, StatusPaused] →
      ({ r with
        ID := generateSessionID r.Title
        Status := convertStatus (convertToSessionStatus r.Status) } : SessionData) = r) := by
  refine ⟨?_, ?_⟩
  · cases hi : sessionsToInstances x rs with
    | error e => simp [fileStorage.SaveSessions, hi] at haccept
    | ok instances =>
      have hs : (fs.SaveSessions x rs).1 =
          { fs with sessionStorage := (x.SaveInstances fs.sessionStorage instances).1 } := by
        simp [fileStorage.SaveSessions, hi]
      rw [hs, LoadSessions_eq _ x instances (hstore instances hi),
        instances_reloaded x rs instances hi hdata hcreated hupdated]
      rfl
  · intro r _ hid hst
    rw [convertStatus_roundtrip r.Status hst, ← hid]

/-- C12, amended, on the records `recordA` and `recordB`. -/
theorem Save_then_Load_witness :
    (testStore.SaveSessions roundTripExt [recordA, recordB]).1.LoadSessions roundTripExt =
      .ok ([recordA, recordB].map fun r => { r with
        ID := generateSessionID r.Title
        Status := convertStatus (convertToSessionStatus r.Status) }) ∧
    (∀ r ∈ [recordA, recordB], r.ID = generateSessionID r.Title →
      r.Status ∈ [StatusRunning, StatusReady, StatusLoading, StatusPaused] →
      ({ r with
        ID := generateSessionID r.Title
        Status := convertStatus (convertToSessionStatus r.Status) } : SessionData) = r) :=
  Save_then_Load testStore roundTripExt [recordA, recordB] (by rfl)
    (by
      intro instances h
      have h2 : sessionsToInstances roundTripExt [recordA, recordB] = .ok savedInstances := by rfl
      rw [h2] at h
      rw [← Except.ok.inj h]
      rfl)
    (by
      intro r hr c u i hc hu hf
      simp only [List.mem_cons, List.mem_singleton, List.not_mem_nil, or_false] at hr
      rcases hr with hr | hr <;> subst hr
      · have hc1 : c = 1 := (Except.ok.inj hc).symm
        have hu1 : u = 1 := (Except.ok.inj hu).symm
        subst hc1 hu1
        rw [← Except.ok.inj hf]
        rfl
      · have hc1 : c = 2 := (Except.ok.inj hc).symm
        have hu1 : u = 2 := (Except.ok.inj hu).symm
        subst hc1 hu1
        rw [← Except.ok.inj hf]
        rfl)
    (by
      intro r hr c hc
      simp only [List.mem_cons, List.mem_singleton, List.not_mem_nil, or_false] at hr
      rcases hr with hr | hr <;> subst hr
      · rw [← Except.ok.inj hc]
        rfl
      · rw [← Except.ok.inj hc]
        rfl)
    (by
      intro r hr u hu
      simp only [List.mem_cons, List.mem_singleton, List.not_mem_nil, or_false] at hr
      rcases hr with hr | hr <;> subst hr
      · rw [← Except.ok.inj hu]
        rfl
      · rw [← Except.ok.inj hu]
        rfl)

/-! ## C17 -/

/-- C17, a session restored in the paused status and resumed: `Start` with one
stored instance "p" in the paused status registers the session without a
watcher; `Resume("p")` succeeds and the session is running, and no watcher was
started for it (the manager-wide stop channel and the stop channel of the
session are open, the wait group counts no watcher), so the property of the
watchers fails. A session made by `Create` has one watcher. After a `Kill`
whose external `Kill` fails, the session is still registered and not paused, and
its watcher has returned. -/
theorem Resume_restored_paused_has_no_watcher :
    testManager.Start pausedStoreExt = (managerP, none) ∧
    WatcherInv managerP ∧
    managerP.Resume testExt "p" = some (managerPResumed, none) ∧
    mapLookup managerPResumed.sessions "p" =
      some { inst := { Title := "p", Status := .Running, AutoYes := false, handle := 0 }
             id := "p", lastStdout := "", lastDiff := none, stopCh := false, watchers := 0 } ∧
    managerPResumed.stopCh = false ∧ managerPResumed.wg = 0 ∧
    ¬ WatcherInv managerPResumed ∧
    testManager.Create testExt optsA = some (managerA, .ok "a") ∧
    WatcherInv managerA ∧
    managerA.Kill failingKillExt "a" =
      some (managerAKillFailed, some (.wrap "failed to kill session" (.external "kill failed"))) ∧
    ¬ WatcherInv managerAKillFailed := by
  refine ⟨by rfl, ?_, by rfl, by rfl, rfl, rfl, ?_, by rfl, ?_, by rfl, ?_⟩
  · intro kw hkw
    simp only [managerP, List.mem_singleton] at hkw
    subst hkw
    intro h
    exact absurd rfl h
  · intro h
    have h1 := h ("p", _) (List.mem_singleton.mpr rfl) (by decide)
    exact absurd h1 (by decide)
  · intro kw hkw
    simp only [managerA, List.mem_singleton] at hkw
    subst hkw
    intro _
    rfl
  · intro h
    have h1 := h ("a", _) (List.mem_singleton.mpr rfl) (by decide)
    exact absurd h1 (by decide)

/-! ## C18 -/

/-- C18, the three sequences of the claim, each on the engine made by `New`.
`Start`, `Close`, `Start`, `Close` with collaborators that never fail: the
second `Close` panics, the manager-wide stop channel being closed since the
first. `Start`, `Events("")`, `Close` with a failing save, `Close`: the second
`Close` panics in the same way. `Start`, `StartSession({title: "a"})`,
`Kill("a")` with a failing external `Kill`, `Kill("a")`: the second `Kill`
panics, the stop channel of the session being closed since the first. -/
theorem close_of_closed_channel_panics :
    (freshEngine.Start testExt = ({ freshEngine with started := true }, none) ∧
      ({ freshEngine with started := true } : Engine).Close testExt =
        some ({ freshEngine with
          mgr := { freshEngine.mgr with
            stopCh := true
            eventBus := { chans := [], subscribers := none, globalSubs := [], closed := true } } },
          none) ∧
      ({ freshEngine with
          mgr := { freshEngine.mgr with
            stopCh := true
            eventBus := { chans := [], subscribers := none, globalSubs := [], closed := true } } }
        : Engine).Start testExt =
        ({ freshEngine with
          started := true
          mgr := { freshEngine.mgr with
            stopCh := true
            eventBus := { chans := [], subscribers := none, globalSubs := [], closed := true } } },
          none) ∧
      ({ freshEngine with
          started := true
          mgr := { freshEngine.mgr with
            stopCh := true
            eventBus := { chans := [], subscribers := none, globalSubs := [], closed := true } } }
        : Engine).Close testExt = none) ∧
    (({ freshEngine with started := true } : Engine).Events "" = some (subscribedEngine, .ok 0) ∧
      subscribedEngine.Close failingSaveExt =
        some ({ subscribedEngine with mgr := { subscribedEngine.mgr with stopCh := true } },
          some (.wrap "failed to stop manager"
            (.wrap "failed to save sessions" (.external "write failed")))) ∧
      ({ subscribedEngine with mgr := { subscribedEngine.mgr with stopCh := true } }
        : Engine).Close testExt = none) ∧
    (({ freshEngine with started := true } : Engine).StartSession testExt optsA =
        some ({ freshEngine with started := true, mgr := managerA }, .ok "a") ∧
      ({ freshEngine with started := true, mgr := managerA } : Engine).Kill failingKillExt "a" =
        some ({ freshEngine with started := true, mgr := managerAKillFailed },
          some (.wrap "failed to kill session" (.external "kill failed"))) ∧
      ({ freshEngine with started := true, mgr := managerAKillFailed } : Engine).Kill testExt "a"
        = none) := by
  refine ⟨⟨by rfl, by rfl, by rfl, by rfl⟩, ⟨by rfl, by rfl, by rfl⟩, ⟨by rfl, by rfl, by rfl⟩⟩

end engine
